import Mathlib

/-!
# Verification of the agent-event-to-client-stream protocol bridge

Shallow embedding of `src/agent/aisdk_stream.py` (`AISDKStreamEmitter`,
`AISDKCallbackHandler`) and of the stream orchestrator
(`superagent_stream.generate` in `src/agent/api/main.py`), together with
proofs of the protocol-level properties stated for the bridge.

Modelling conventions:
* Python JSON-ish values are modelled by `PyJson`; a Python `dict` is an
  association list of fields, a Python `str` is `PyJson.str`.
* The SSE wire strings produced by `AISDKStreamEmitter` are in bijection
  with their frame contents (each `emit_*` serialises a distinct `type`
  tag), so the emitter output is modelled at the frame level by `Frame`.
* `uuid.uuid4()` (used by `AISDKCallbackHandler._new_id`) is an external
  fresh-name source; it is determinised as a counter threaded next to the
  handler state.  The counter is not part of the handler's own fields
  (`self.*`), which are modelled by `HandlerState`.
* `json.loads` is an external library function; the embedding is
  parametrised over it (`jl : String → Option PyJson`, `none` = parse
  failure / `JSONDecodeError`).
* Python exceptions (the `AttributeError` raised by calling `.get` on a
  non-dict value) are modelled with `Except String`.
-/

namespace RonBrowser

/-- Python JSON-ish values (what `json.dumps` accepts and what the agent
runtime places in callback payloads).  A Python `dict` is `obj`, a list is
`arr`, a string is `str`. -/
inductive PyJson where
  | null
  | bool (b : Bool)
  | num (n : Int)
  | str (s : String)
  | arr (elems : List PyJson)
  | obj (fields : List (String × PyJson))

/-- Python truthiness of a possibly-absent string value
(`kwargs.get(k)` is falsy when the key is absent or the string empty). -/
def strTruthy : Option String → Bool
  | some s => s.length != 0
  | none => false

/-- Python `d.get(key, default)` on a JSON-ish value: on a dict it returns
the field (or the default), on any non-dict value the attribute access
`.get` raises `AttributeError`. -/
def pyGet (v : PyJson) (key : String) (dflt : PyJson) : Except String PyJson :=
  match v with
  | PyJson.obj fields =>
    match fields.lookup key with
    | some x => Except.ok x
    | none => Except.ok dflt
  | _ => Except.error "AttributeError"

/-- One protocol frame, mirroring the events built by `AISDKStreamEmitter`
(each variant corresponds to one `emit_*` method; the `data: {json}\n\n`
serialisation is injective on these, so frames model the wire faithfully).
Block ids are carried as `Option String` because the handler passes its
`Optional[str]` fields (`self.text_id`, `self.reasoning_id`) directly. -/
inductive Frame where
  | start (messageId : Option String)
  | startStep
  | textStart (id : Option String)
  | textDelta (id : Option String) (delta : String)
  | textEnd (id : Option String)
  | reasoningStart (id : Option String)
  | reasoningDelta (id : Option String) (delta : String)
  | reasoningEnd (id : Option String)
  | toolInputStart (toolCallId : String) (toolName : String)
  | toolInputAvailable (toolCallId : String) (toolName : String) (input : PyJson)
  | toolOutputAvailable (toolCallId : String) (output : PyJson)
  | toolOutputError (toolCallId : String) (errorText : PyJson)
  | finishStep
  | finish (finishReason : Option String)
  | done
  | error (errorText : String)
  | ping

/-- The handler's own mutable fields (`self.*` in `AISDKCallbackHandler.__init__`).
`pending_tool_ids` models the Python `set` as a duplicate-free list used
through set-style `add`/`discard`/membership only. -/
structure HandlerState where
  started : Bool := false
  in_step : Bool := false
  in_reasoning : Bool := false
  in_text : Bool := false
  reasoning_id : Option String := none
  text_id : Option String := none
  pending_tool_ids : List String := []
deriving DecidableEq, Repr

/-- Initial handler state (`AISDKCallbackHandler.__init__`). -/
def initState : HandlerState := {}

/-- Python `set.add`. -/
def setAdd (l : List String) (x : String) : List String :=
  if x ∈ l then l else x :: l

/-- Python `set.discard` (removes if present, never raises). -/
def setDiscard (l : List String) (x : String) : List String :=
  l.filter (fun y => y != x)

/-- `AISDKCallbackHandler._new_id`: `uuid.uuid4().hex[:8]` determinised as
a counter `c` standing for the ambient uuid source. -/
def new_id (pre : String) (c : Nat) : String × Nat :=
  (pre ++ toString c, c + 1)

/-- `AISDKCallbackHandler._close_reasoning`: emit `reasoning-end` and clear,
if a reasoning block is open (guard is Python truthiness of
`self.in_reasoning and self.reasoning_id`). -/
def close_reasoning (s : HandlerState) : HandlerState × List Frame :=
  if s.in_reasoning && strTruthy s.reasoning_id then
    ({ s with in_reasoning := false, reasoning_id := none },
     [Frame.reasoningEnd s.reasoning_id])
  else (s, [])

/-- `AISDKCallbackHandler._close_text`. -/
def close_text (s : HandlerState) : HandlerState × List Frame :=
  if s.in_text && strTruthy s.text_id then
    ({ s with in_text := false, text_id := none },
     [Frame.textEnd s.text_id])
  else (s, [])

/-- `AISDKCallbackHandler._ensure_started`: emit `start` once and
`start-step` once. -/
def ensure_started (s : HandlerState) : HandlerState × List Frame :=
  let p1 := if !s.started then ({ s with started := true }, [Frame.start none])
            else (s, ([] : List Frame))
  let p2 := if !p1.1.in_step then ({ p1.1 with in_step := true }, [Frame.startStep])
            else (p1.1, ([] : List Frame))
  (p2.1, p1.2 ++ p2.2)

/-- The `current_tool_use` payload dict `{toolUseId, name, input}`;
`none` fields model absent keys. -/
structure ToolUse where
  toolUseId : Option String := none
  name : Option String := none
  input : Option PyJson := none

/-- The `tool_stream_event` payload dict `{tool_use, data}`. -/
structure ToolStreamEvent where
  tool_use : Option ToolUse := none
  data : Option PyJson := none

/-- The `tool_result` payload dict `{toolUseId, status, content}`. -/
structure ToolResult where
  toolUseId : Option String := none
  status : Option String := none
  content : Option (List PyJson) := none

/-- The final `AgentResult` object; `stop_reason = none` models an absent
`stop_reason` attribute (the code then falls back to `"stop"`). -/
structure AgentResult where
  stop_reason : Option String := none

/-- One Strands callback event: the `**kwargs` of
`AISDKCallbackHandler.__call__`, with the keys the handler inspects.
Absent keys are `none`/`false`; a present-but-falsy value (empty string,
empty dict) is modelled per Python truthiness in the guards below. -/
structure Event where
  init_event_loop : Bool := false
  start_event_loop : Bool := false
  reasoningText : Option String := none
  reasoning : Bool := false
  data : Option String := none
  current_tool_use : Option ToolUse := none
  tool_stream_event : Option ToolStreamEvent := none
  tool_result : Option ToolResult := none
  complete : Bool := false
  result : Option AgentResult := none

/-- The guard `current_tool_use and current_tool_use.get("name")`:
returns the payload when the event will enter the tool-use branch. -/
def ctu_guard (e : Event) : Option ToolUse :=
  match e.current_tool_use with
  | some tu => if strTruthy tu.name then some tu else none
  | none => none

/-- Parsing of a string-typed tool input
(`json.loads` fallback to `{"raw": <string>}` on `JSONDecodeError`);
non-string inputs pass through. -/
def parse_tool_input (jl : String → Option PyJson) (v : PyJson) : PyJson :=
  match v with
  | PyJson.str raw =>
    match jl raw with
    | some parsed => parsed
    | none => PyJson.obj [("raw", PyJson.str raw)]
  | other => other

/-- The reasoning branch of `__call__` (lines 206-218): ensure started,
close any text block, open a reasoning block if needed, emit the delta. -/
def reasoning_branch (s : HandlerState) (c : Nat) (t : Option String) :
    HandlerState × Nat × List Frame :=
  let p1 := ensure_started s
  let p2 := close_text p1.1
  let p3 : HandlerState × Nat × List Frame :=
    if !p2.1.in_reasoning then
      let idc := new_id "r-" c
      ({ p2.1 with reasoning_id := some idc.1, in_reasoning := true }, idc.2,
       [Frame.reasoningStart (some idc.1)])
    else (p2.1, c, [])
  (p3.1, p3.2.1,
   p1.2 ++ p2.2 ++ p3.2.2 ++ [Frame.reasoningDelta p3.1.reasoning_id (t.getD "")])

/-- The text branch of `__call__` (lines 220-232). -/
def data_branch (s : HandlerState) (c : Nat) (d : Option String) :
    HandlerState × Nat × List Frame :=
  let p1 := ensure_started s
  let p2 := close_reasoning p1.1
  let p3 : HandlerState × Nat × List Frame :=
    if !p2.1.in_text then
      let idc := new_id "t-" c
      ({ p2.1 with text_id := some idc.1, in_text := true }, idc.2,
       [Frame.textStart (some idc.1)])
    else (p2.1, c, [])
  (p3.1, p3.2.1,
   p1.2 ++ p2.2 ++ p3.2.2 ++ [Frame.textDelta p3.1.text_id (d.getD "")])

/-- The `current_tool_use` branch of `__call__` (lines 234-257).
The `dict.get("toolUseId", self._new_id("tool-"))` default argument is
evaluated eagerly in Python, so the uuid counter advances even when
`toolUseId` is present. -/
def ctu_branch (jl : String → Option PyJson) (s : HandlerState) (c : Nat)
    (tu : ToolUse) : HandlerState × Nat × List Frame :=
  let p1 := ensure_started s
  let p2 := close_reasoning p1.1
  let p3 := close_text p2.1
  let fresh := new_id "tool-" c
  let tool_id := tu.toolUseId.getD fresh.1
  let tool_name := tu.name.getD ""
  let tool_input := parse_tool_input jl (tu.input.getD (PyJson.obj []))
  if tool_id ∉ p3.1.pending_tool_ids then
    ({ p3.1 with pending_tool_ids := setAdd p3.1.pending_tool_ids tool_id },
     fresh.2,
     p1.2 ++ p2.2 ++ p3.2 ++
       [Frame.toolInputStart tool_id tool_name,
        Frame.toolInputAvailable tool_id tool_name tool_input])
  else (p3.1, fresh.2, p1.2 ++ p2.2 ++ p3.2)

/-- The `tool_stream_event` branch of `__call__` (lines 259-268): no
step/block management, emit `tool-output-available`, discard the id. -/
def tse_branch (s : HandlerState) (c : Nat) (tse : ToolStreamEvent) :
    HandlerState × Nat × List Frame :=
  let tu := tse.tool_use.getD {}
  let tool_id := tu.toolUseId.getD "unknown"
  let output_data := tse.data.getD PyJson.null
  ({ s with pending_tool_ids := setDiscard s.pending_tool_ids tool_id }, c,
   [Frame.toolOutputAvailable tool_id output_data])

/-- The `tool_result` branch of `__call__` (lines 270-285).  On
`status == "error"` the code reads `content[0].get("text", ...)`, which
raises `AttributeError` when the first content element is not a dict. -/
def tr_branch (s : HandlerState) (c : Nat) (tr : ToolResult) :
    Except String (HandlerState × Nat × List Frame) :=
  let tool_id := tr.toolUseId.getD "unknown"
  let status := tr.status.getD "success"
  let content := tr.content.getD []
  let discarded := { s with
    pending_tool_ids := setDiscard s.pending_tool_ids tool_id }
  if status = "error" then
    match content with
    | [] =>
      Except.ok (discarded, c,
        [Frame.toolOutputError tool_id (PyJson.str "Tool execution failed")])
    | c0 :: _ =>
      match pyGet c0 "text" (PyJson.str "Tool execution failed") with
      | Except.ok errText =>
        Except.ok (discarded, c, [Frame.toolOutputError tool_id errText])
      | Except.error m => Except.error m
  else
    let output : PyJson :=
      match content with
      | [single] => single
      | other => PyJson.arr other
    Except.ok (discarded, c, [Frame.toolOutputAvailable tool_id output])

/-- The provider stop-reason table (lines 313-318), a Python dict. -/
def reason_map : List (String × String) :=
  [("end_turn", "stop"), ("stop_sequence", "stop"),
   ("max_tokens", "length"), ("tool_use", "tool-calls")]

/-- `reason_map.get(raw_reason, 'stop')`. -/
def reason_map_get (raw : String) : String :=
  (reason_map.lookup raw).getD "stop"

/-- The `complete` branch of `__call__` (lines 287-298). -/
def complete_branch (s : HandlerState) (c : Nat) :
    HandlerState × Nat × List Frame :=
  let p1 := close_reasoning s
  let p2 := close_text p1.1
  let p3 : HandlerState × List Frame :=
    if p2.1.in_step then ({ p2.1 with in_step := false }, [Frame.finishStep])
    else (p2.1, [])
  (p3.1, c, p1.2 ++ p2.2 ++ p3.2 ++ [Frame.finish (some "stop"), Frame.done])

/-- The `result` branch of `__call__` (lines 300-322). -/
def result_branch (s : HandlerState) (c : Nat) (r : AgentResult) :
    HandlerState × Nat × List Frame :=
  let p1 := close_reasoning s
  let p2 := close_text p1.1
  let p3 : HandlerState × List Frame :=
    if p2.1.in_step then ({ p2.1 with in_step := false }, [Frame.finishStep])
    else (p2.1, [])
  let raw_reason := r.stop_reason.getD "stop"
  let finish_reason := reason_map_get raw_reason
  (p3.1, c,
   p1.2 ++ p2.2 ++ p3.2 ++ [Frame.finish (some finish_reason), Frame.done])

/-- `AISDKCallbackHandler.__call__`: priority dispatch over the event keys,
exactly mirroring the early-return/fall-through structure of the source
(guards that fail fall through to the next check; an event matching no
guard returns with nothing emitted). -/
def callback (jl : String → Option PyJson) (s : HandlerState) (c : Nat)
    (e : Event) : Except String (HandlerState × Nat × List Frame) :=
  if e.init_event_loop then
    let p := ensure_started s
    Except.ok (p.1, c, p.2)
  else if e.start_event_loop then
    let p := ensure_started s
    Except.ok (p.1, c, p.2)
  else if strTruthy e.reasoningText && e.reasoning then
    Except.ok (reasoning_branch s c e.reasoningText)
  else if strTruthy e.data then
    Except.ok (data_branch s c e.data)
  else
    match ctu_guard e with
    | some tu => Except.ok (ctu_branch jl s c tu)
    | none =>
      match e.tool_stream_event with
      | some tse => Except.ok (tse_branch s c tse)
      | none =>
        match e.tool_result with
        | some tr => tr_branch s c tr
        | none =>
          if e.complete then Except.ok (complete_branch s c)
          else
            match e.result with
            | some r => Except.ok (result_branch s c r)
            | none => Except.ok (s, c, [])

/-- Result of driving the handler over a sequence of callback events:
final state, final uuid counter, frames emitted (in order), and the
message of the Python exception that aborted processing, if any. -/
structure RunResult where
  state : HandlerState
  ctr : Nat
  output : List Frame
  failure : Option String

/-- Feed a list of events through `callback`, accumulating emitted frames;
an exception stops processing (frames already emitted stand — the only
raising point in the source raises before any emission of its event). -/
def runFrom (jl : String → Option PyJson) (s : HandlerState) (c : Nat) :
    List Event → RunResult
  | [] => ⟨s, c, [], none⟩
  | e :: rest =>
    match callback jl s c e with
    | Except.ok (s1, c1, out1) =>
      let r := runFrom jl s1 c1 rest
      ⟨r.state, r.ctr, out1 ++ r.output, r.failure⟩
    | Except.error m => ⟨s, c, [], some m⟩

/-- A trivially failing `json.loads` stand-in, used for concrete runs whose
events carry no string-typed tool input. -/
def jlNone : String → Option PyJson := fun _ => none

/-- Projections of a `callback` result (total, with the error case mapped
to inert defaults; used only to phrase theorems about `ok` results). -/
def resState : Except String (HandlerState × Nat × List Frame) → HandlerState
  | Except.ok (s, _, _) => s
  | Except.error _ => initState

def resCtr : Except String (HandlerState × Nat × List Frame) → Nat
  | Except.ok (_, c, _) => c
  | Except.error _ => 0

def resOut : Except String (HandlerState × Nat × List Frame) → List Frame
  | Except.ok (_, _, out) => out
  | Except.error _ => []

def resOk : Except String (HandlerState × Nat × List Frame) → Bool
  | Except.ok _ => true
  | Except.error _ => false

/-! ## Frame classification predicates -/

/-- Is this frame an `error` frame? -/
def isErrorFrame : Frame → Bool
  | Frame.error _ => true
  | _ => false

/-- Is this a `tool-input-start` frame for the given tool call id? -/
def isInputStartFor (tid : String) : Frame → Bool
  | Frame.toolInputStart t _ => t == tid
  | _ => false

/-- Is this a `tool-input-available` frame for the given tool call id? -/
def isInputAvailableFor (tid : String) : Frame → Bool
  | Frame.toolInputAvailable t _ _ => t == tid
  | _ => false

/-- Is this a `tool-output-available` or `tool-output-error` frame for the
given tool call id? -/
def isOutputFor (tid : String) : Frame → Bool
  | Frame.toolOutputAvailable t _ => t == tid
  | Frame.toolOutputError t _ => t == tid
  | _ => false

/-! ## The Stream Orchestrator

Model of `superagent_stream.generate` in `src/agent/api/main.py`
(lines 659-692; `chat_stream.generate` in `src/agent/docker/server.py` has
the same structure).  The handler (`UICallbackHandler`, a transparent
wrapper around `AISDKCallbackHandler`) pushes every SSE string onto an
`asyncio.Queue`; `generate` repeatedly dequeues with a 100 ms timeout and
yields each item, and when the executor task is finished it drains the
remaining queue items and ends.  Consequently the client-visible stream is
exactly the queued frames in queue order.  There is no `try`/`except`
around the agent task, `task.result()` is never called, and no frame is
synthesised by `generate` itself, so an exception raised by the blocking
`agent(message)` call adds nothing to the stream and is never re-raised
into the response: the byte stream simply ends after the drain. -/

/-- The frames `generate` yields, as a function of the frames the handler
enqueued during the run and whether the blocking run raised.  Faithful to
the source: the yielded sequence is the queue contents regardless of the
run outcome (the exception is never retrieved). -/
def generate_output (queued : List Frame) (_runRaised : Bool) : List Frame :=
  queued

/-- End-to-end pipeline for one `/superagent/stream` session: the agent
delivers `es` to the callback handler (starting from a fresh handler) and
then either returns or raises; the client sees what `generate` yields. -/
def orchestrate (jl : String → Option PyJson) (es : List Event)
    (raised : Bool) : List Frame :=
  generate_output (runFrom jl initState 0 es).output raised

/-! ## Helper lemmas about `_ensure_started`, `_close_reasoning`,
`_close_text` -/

@[simp] lemma ensure_started_started (s : HandlerState) :
    (ensure_started s).1.started = true := by
  unfold ensure_started
  cases hs : s.started <;> cases hi : s.in_step <;> simp [hs, hi]

@[simp] lemma ensure_started_in_step (s : HandlerState) :
    (ensure_started s).1.in_step = true := by
  unfold ensure_started
  cases hs : s.started <;> cases hi : s.in_step <;> simp [hs, hi]

@[simp] lemma ensure_started_in_text (s : HandlerState) :
    (ensure_started s).1.in_text = s.in_text := by
  unfold ensure_started
  cases hs : s.started <;> cases hi : s.in_step <;> simp [hs, hi]

@[simp] lemma ensure_started_in_reasoning (s : HandlerState) :
    (ensure_started s).1.in_reasoning = s.in_reasoning := by
  unfold ensure_started
  cases hs : s.started <;> cases hi : s.in_step <;> simp [hs, hi]

@[simp] lemma ensure_started_text_id (s : HandlerState) :
    (ensure_started s).1.text_id = s.text_id := by
  unfold ensure_started
  cases hs : s.started <;> cases hi : s.in_step <;> simp [hs, hi]

@[simp] lemma ensure_started_reasoning_id (s : HandlerState) :
    (ensure_started s).1.reasoning_id = s.reasoning_id := by
  unfold ensure_started
  cases hs : s.started <;> cases hi : s.in_step <;> simp [hs, hi]

@[simp] lemma ensure_started_pending (s : HandlerState) :
    (ensure_started s).1.pending_tool_ids = s.pending_tool_ids := by
  unfold ensure_started
  cases hs : s.started <;> cases hi : s.in_step <;> simp [hs, hi]

lemma ensure_started_of_running (s : HandlerState) (h1 : s.started = true)
    (h2 : s.in_step = true) : ensure_started s = (s, []) := by
  unfold ensure_started
  simp [h1, h2]

lemma ensure_started_frames (s : HandlerState) :
    ∀ f ∈ (ensure_started s).2, f = Frame.start none ∨ f = Frame.startStep := by
  unfold ensure_started
  cases hs : s.started <;> cases hi : s.in_step <;> simp [hs, hi]

@[simp] lemma close_reasoning_in_reasoning_fields (s : HandlerState) :
    (close_reasoning s).1.in_text = s.in_text ∧
    (close_reasoning s).1.text_id = s.text_id ∧
    (close_reasoning s).1.started = s.started ∧
    (close_reasoning s).1.in_step = s.in_step ∧
    (close_reasoning s).1.pending_tool_ids = s.pending_tool_ids := by
  unfold close_reasoning
  split <;> simp

lemma close_reasoning_of_closed (s : HandlerState)
    (h : s.in_reasoning = false) : close_reasoning s = (s, []) := by
  unfold close_reasoning
  simp [h]

lemma close_reasoning_frames (s : HandlerState) :
    ∀ f ∈ (close_reasoning s).2, ∃ i, f = Frame.reasoningEnd i := by
  unfold close_reasoning
  split <;> simp

@[simp] lemma close_text_fields (s : HandlerState) :
    (close_text s).1.in_reasoning = s.in_reasoning ∧
    (close_text s).1.reasoning_id = s.reasoning_id ∧
    (close_text s).1.started = s.started ∧
    (close_text s).1.in_step = s.in_step ∧
    (close_text s).1.pending_tool_ids = s.pending_tool_ids := by
  unfold close_text
  split <;> simp

lemma close_text_of_closed (s : HandlerState)
    (h : s.in_text = false) : close_text s = (s, []) := by
  unfold close_text
  simp [h]

lemma close_text_frames (s : HandlerState) :
    ∀ f ∈ (close_text s).2, ∃ i, f = Frame.textEnd i := by
  unfold close_text
  split <;> simp

/-! ## Frame-count lemmas for the branch bodies

For a frame predicate `p` that is false on every frame shape a branch can
emit, the branch output contains no `p`-frame.  These are instantiated
with `isErrorFrame` and the tool-frame predicates below. -/

lemma ensure_started_countP (p : Frame → Bool) (s : HandlerState)
    (hstart : p (Frame.start none) = false) (hstep : p Frame.startStep = false) :
    List.countP p (ensure_started s).2 = 0 := by
  refine List.countP_eq_zero.mpr ?_
  intro f hf
  rcases ensure_started_frames s f hf with h | h <;> simp [h, hstart, hstep]

lemma close_reasoning_countP (p : Frame → Bool) (s : HandlerState)
    (hre : ∀ i, p (Frame.reasoningEnd i) = false) :
    List.countP p (close_reasoning s).2 = 0 := by
  refine List.countP_eq_zero.mpr ?_
  intro f hf
  rcases close_reasoning_frames s f hf with ⟨i, h⟩
  simp [h, hre]

lemma close_text_countP (p : Frame → Bool) (s : HandlerState)
    (hte : ∀ i, p (Frame.textEnd i) = false) :
    List.countP p (close_text s).2 = 0 := by
  refine List.countP_eq_zero.mpr ?_
  intro f hf
  rcases close_text_frames s f hf with ⟨i, h⟩
  simp [h, hte]

lemma reasoning_branch_countP (p : Frame → Bool) (s : HandlerState) (c : Nat)
    (t : Option String)
    (hstart : p (Frame.start none) = false) (hstep : p Frame.startStep = false)
    (hte : ∀ i, p (Frame.textEnd i) = false)
    (hrs : ∀ i, p (Frame.reasoningStart i) = false)
    (hrd : ∀ i d, p (Frame.reasoningDelta i d) = false) :
    List.countP p (reasoning_branch s c t).2.2 = 0 := by
  simp only [reasoning_branch]
  split <;>
    simp [List.countP_append, List.countP_cons,
      ensure_started_countP p _ hstart hstep, close_text_countP p _ hte,
      hrs, hrd]

lemma data_branch_countP (p : Frame → Bool) (s : HandlerState) (c : Nat)
    (d : Option String)
    (hstart : p (Frame.start none) = false) (hstep : p Frame.startStep = false)
    (hre : ∀ i, p (Frame.reasoningEnd i) = false)
    (hts : ∀ i, p (Frame.textStart i) = false)
    (htd : ∀ i dl, p (Frame.textDelta i dl) = false) :
    List.countP p (data_branch s c d).2.2 = 0 := by
  simp only [data_branch]
  split <;>
    simp [List.countP_append, List.countP_cons,
      ensure_started_countP p _ hstart hstep, close_reasoning_countP p _ hre,
      hts, htd]

lemma complete_branch_countP (p : Frame → Bool) (s : HandlerState) (c : Nat)
    (hre : ∀ i, p (Frame.reasoningEnd i) = false)
    (hte : ∀ i, p (Frame.textEnd i) = false)
    (hfs : p Frame.finishStep = false)
    (hfin : ∀ r, p (Frame.finish r) = false)
    (hdone : p Frame.done = false) :
    List.countP p (complete_branch s c).2.2 = 0 := by
  simp only [complete_branch]
  split <;>
    simp [List.countP_append, List.countP_cons,
      close_reasoning_countP p _ hre, close_text_countP p _ hte,
      hfs, hfin, hdone]

lemma result_branch_countP (p : Frame → Bool) (s : HandlerState) (c : Nat)
    (r : AgentResult)
    (hre : ∀ i, p (Frame.reasoningEnd i) = false)
    (hte : ∀ i, p (Frame.textEnd i) = false)
    (hfs : p Frame.finishStep = false)
    (hfin : ∀ fr, p (Frame.finish fr) = false)
    (hdone : p Frame.done = false) :
    List.countP p (result_branch s c r).2.2 = 0 := by
  simp only [result_branch]
  split <;>
    simp [List.countP_append, List.countP_cons,
      close_reasoning_countP p _ hre, close_text_countP p _ hte,
      hfs, hfin, hdone]

lemma ctu_branch_countP (p : Frame → Bool)
    (jl : String → Option PyJson) (s : HandlerState) (c : Nat) (tu : ToolUse)
    (hstart : p (Frame.start none) = false) (hstep : p Frame.startStep = false)
    (hre : ∀ i, p (Frame.reasoningEnd i) = false)
    (hte : ∀ i, p (Frame.textEnd i) = false)
    (his : ∀ a b, p (Frame.toolInputStart a b) = false)
    (hia : ∀ a b i, p (Frame.toolInputAvailable a b i) = false) :
    List.countP p (ctu_branch jl s c tu).2.2 = 0 := by
  simp only [ctu_branch]
  split <;>
    simp [List.countP_append, List.countP_cons,
      ensure_started_countP p _ hstart hstep, close_reasoning_countP p _ hre,
      close_text_countP p _ hte, his, hia]

/-! ## Set-model lemmas -/

lemma mem_setAdd {l : List String} {x y : String} :
    y ∈ setAdd l x ↔ y ∈ l ∨ y = x := by
  unfold setAdd
  split
  · constructor
    · exact fun h => Or.inl h
    · rintro (h | rfl)
      · exact h
      · assumption
  · simp [or_comm]

lemma mem_setDiscard {l : List String} {x y : String} :
    y ∈ setDiscard l x ↔ y ∈ l ∧ y ≠ x := by
  simp [setDiscard, List.mem_filter, bne_iff_ne]

lemma not_mem_setDiscard_self (l : List String) (x : String) :
    x ∉ setDiscard l x := by
  simp [mem_setDiscard]

lemma setDiscard_of_not_mem {l : List String} {x : String} (h : x ∉ l) :
    setDiscard l x = l := by
  unfold setDiscard
  refine List.filter_eq_self.mpr ?_
  intro y hy
  simp only [bne_iff_ne, ne_eq, decide_eq_true_eq]
  intro heq
  exact h (heq ▸ hy)

/-! ## Close-block idempotence -/

lemma close_reasoning_noop_of (s : HandlerState)
    (h : (s.in_reasoning && strTruthy s.reasoning_id) = false) :
    close_reasoning s = (s, []) := by
  unfold close_reasoning
  simp [h]

lemma close_text_noop_of (s : HandlerState)
    (h : (s.in_text && strTruthy s.text_id) = false) :
    close_text s = (s, []) := by
  unfold close_text
  simp [h]

/-- After `_close_reasoning` runs, its guard is false (no open, truthy-id
reasoning block remains), so a second `_close_reasoning` is a no-op. -/
lemma close_reasoning_guard_after (s : HandlerState) :
    ((close_reasoning s).1.in_reasoning &&
      strTruthy (close_reasoning s).1.reasoning_id) = false := by
  unfold close_reasoning
  split
  · simp
  · next h => simpa using h

lemma close_text_guard_after (s : HandlerState) :
    ((close_text s).1.in_text && strTruthy (close_text s).1.text_id) = false := by
  unfold close_text
  split
  · simp
  · next h => simpa using h

lemma close_reasoning_closes (s : HandlerState)
    (h : s.in_reasoning = true → strTruthy s.reasoning_id = true) :
    (close_reasoning s).1.in_reasoning = false := by
  unfold close_reasoning
  cases hr : s.in_reasoning
  · simp [hr]
  · simp [hr, h hr]

lemma close_text_closes (s : HandlerState)
    (h : s.in_text = true → strTruthy s.text_id = true) :
    (close_text s).1.in_text = false := by
  unfold close_text
  cases ht : s.in_text
  · simp [ht]
  · simp [ht, h ht]

/-- Fresh block ids (`"r-..."`, `"t-..."`, `"tool-..."`) are non-empty, so
they are truthy in Python. -/
lemma strTruthy_new_id (pre : String) (c : Nat) (h : pre.length ≠ 0) :
    strTruthy (some (new_id pre c).1) = true := by
  simp [strTruthy, new_id, String.length_append]
  omega

/-! ## The protocol-state invariant (reachable handler states)

An open block always carries a truthy id, an open block implies the
stream/step have started, and the two block kinds are never open
simultaneously. -/

def Inv (s : HandlerState) : Prop :=
  (s.in_text = false ∨
    (strTruthy s.text_id = true ∧ s.started = true ∧ s.in_step = true)) ∧
  (s.in_reasoning = false ∨
    (strTruthy s.reasoning_id = true ∧ s.started = true ∧ s.in_step = true)) ∧
  (s.in_text = false ∨ s.in_reasoning = false)

lemma inv_initState : Inv initState := by
  refine ⟨Or.inl rfl, Or.inl rfl, Or.inl rfl⟩

lemma inv_text_clause {s : HandlerState} (hs : Inv s) (h : s.in_text = true) :
    strTruthy s.text_id = true ∧ s.started = true ∧ s.in_step = true := by
  rcases hs.1 with h1 | h1
  · rw [h] at h1; cases h1
  · exact h1

lemma inv_reasoning_clause {s : HandlerState} (hs : Inv s)
    (h : s.in_reasoning = true) :
    strTruthy s.reasoning_id = true ∧ s.started = true ∧ s.in_step = true := by
  rcases hs.2.1 with h1 | h1
  · rw [h] at h1; cases h1
  · exact h1

lemma inv_mutex {s : HandlerState} (hs : Inv s) :
    s.in_text = false ∨ s.in_reasoning = false := hs.2.2

/-! ## Shape of the `tool_result` branch -/

lemma tr_branch_shape (s : HandlerState) (c : Nat) (tr : ToolResult)
    (s2 : HandlerState) (c2 : Nat) (out : List Frame)
    (h : tr_branch s c tr = Except.ok (s2, c2, out)) :
    s2 = { s with pending_tool_ids :=
        setDiscard s.pending_tool_ids (tr.toolUseId.getD "unknown") } ∧
    c2 = c ∧
    ∃ f, out = [f] ∧ isOutputFor (tr.toolUseId.getD "unknown") f = true := by
  simp only [tr_branch] at h
  split at h
  · split at h
    · injection h with h1
      refine ⟨(congrArg (fun q => q.1) h1).symm,
        (congrArg (fun q => q.2.1) h1).symm, ?_⟩
      refine ⟨_, (congrArg (fun q => q.2.2) h1).symm, by simp [isOutputFor]⟩
    · split at h
      · injection h with h1
        refine ⟨(congrArg (fun q => q.1) h1).symm,
          (congrArg (fun q => q.2.1) h1).symm, ?_⟩
        refine ⟨_, (congrArg (fun q => q.2.2) h1).symm, by simp [isOutputFor]⟩
      · cases h
  · injection h with h1
    refine ⟨(congrArg (fun q => q.1) h1).symm,
      (congrArg (fun q => q.2.1) h1).symm, ?_⟩
    refine ⟨_, (congrArg (fun q => q.2.2) h1).symm, by simp [isOutputFor]⟩

/-! ## Case analysis of the dispatch in `__call__` -/

lemma callback_cases (jl : String → Option PyJson) (s : HandlerState)
    (c : Nat) (e : Event) (s2 : HandlerState) (c2 : Nat) (out : List Frame)
    (h : callback jl s c e = Except.ok (s2, c2, out)) :
    (s2, c2, out) = ((ensure_started s).1, c, (ensure_started s).2) ∨
    (s2, c2, out) = reasoning_branch s c e.reasoningText ∨
    (s2, c2, out) = data_branch s c e.data ∨
    (∃ tu, ctu_guard e = some tu ∧ (s2, c2, out) = ctu_branch jl s c tu) ∨
    (∃ tse, e.tool_stream_event = some tse ∧
      (s2, c2, out) = tse_branch s c tse) ∨
    (∃ tr, e.tool_result = some tr ∧ tr_branch s c tr = Except.ok (s2, c2, out)) ∨
    (s2, c2, out) = complete_branch s c ∨
    (∃ r, e.result = some r ∧ (s2, c2, out) = result_branch s c r) ∨
    (s2, c2, out) = (s, c, []) := by
  unfold callback at h
  split at h
  · exact Or.inl (by injection h with h1; exact h1.symm)
  · split at h
    · exact Or.inl (by injection h with h1; exact h1.symm)
    · split at h
      · exact Or.inr (Or.inl (by injection h with h1; exact h1.symm))
      · split at h
        · exact Or.inr (Or.inr (Or.inl (by injection h with h1; exact h1.symm)))
        · split at h
          · next tu heq =>
            exact Or.inr (Or.inr (Or.inr (Or.inl
              ⟨tu, heq, by injection h with h1; exact h1.symm⟩)))
          · next heq =>
            split at h
            · next tse heq2 =>
              exact Or.inr (Or.inr (Or.inr (Or.inr (Or.inl
                ⟨tse, heq2, by injection h with h1; exact h1.symm⟩))))
            · next heq2 =>
              split at h
              · next tr heq3 =>
                exact Or.inr (Or.inr (Or.inr (Or.inr (Or.inr (Or.inl
                  ⟨tr, heq3, h⟩)))))
              · next heq3 =>
                split at h
                · exact Or.inr (Or.inr (Or.inr (Or.inr (Or.inr (Or.inr
                    (Or.inl (by injection h with h1; exact h1.symm)))))))
                · split at h
                  · next r heq4 =>
                    exact Or.inr (Or.inr (Or.inr (Or.inr (Or.inr (Or.inr
                      (Or.inr (Or.inl
                        ⟨r, heq4, by injection h with h1; exact h1.symm⟩)))))))
                  · next heq4 =>
                    exact Or.inr (Or.inr (Or.inr (Or.inr (Or.inr (Or.inr
                      (Or.inr (Or.inr
                        (by injection h with h1; exact h1.symm))))))))

/-! ## Invariant preservation, branch by branch -/

lemma ensure_started_inv (s : HandlerState) (hs : Inv s) :
    Inv (ensure_started s).1 := by
  obtain ⟨h1, h2, h3⟩ := hs
  refine ⟨?_, ?_, ?_⟩
  · rw [ensure_started_in_text, ensure_started_text_id, ensure_started_started,
      ensure_started_in_step]
    rcases h1 with h | h
    · exact Or.inl h
    · exact Or.inr ⟨h.1, rfl, rfl⟩
  · rw [ensure_started_in_reasoning, ensure_started_reasoning_id,
      ensure_started_started, ensure_started_in_step]
    rcases h2 with h | h
    · exact Or.inl h
    · exact Or.inr ⟨h.1, rfl, rfl⟩
  · rw [ensure_started_in_text, ensure_started_in_reasoning]
    exact h3

lemma reasoning_branch_inv (s : HandlerState) (c : Nat) (t : Option String)
    (hs : Inv s) : Inv (reasoning_branch s c t).1 := by
  have hct : (close_text (ensure_started s).1).1.in_text = false := by
    apply close_text_closes
    intro hx
    rw [ensure_started_text_id]
    exact (inv_text_clause hs (by simpa using hx)).1
  have hst : (close_text (ensure_started s).1).1.started = true := by
    rw [(close_text_fields _).2.2.1, ensure_started_started]
  have hsp : (close_text (ensure_started s).1).1.in_step = true := by
    rw [(close_text_fields _).2.2.2.1, ensure_started_in_step]
  simp only [reasoning_branch]
  split
  · refine ⟨Or.inl (by simpa using hct), ?_, Or.inl (by simpa using hct)⟩
    refine Or.inr ⟨?_, hst, hsp⟩
    simpa using strTruthy_new_id "r-" c (by decide)
  · next hcond =>
    have hro : (close_text (ensure_started s).1).1.in_reasoning = true := by
      simpa using hcond
    have hsr : s.in_reasoning = true := by
      rw [(close_text_fields _).1, ensure_started_in_reasoning] at hro
      exact hro
    refine ⟨Or.inl hct, ?_, Or.inl hct⟩
    refine Or.inr ⟨?_, hst, hsp⟩
    rw [(close_text_fields _).2.1, ensure_started_reasoning_id]
    exact (inv_reasoning_clause hs hsr).1

lemma data_branch_inv (s : HandlerState) (c : Nat) (d : Option String)
    (hs : Inv s) : Inv (data_branch s c d).1 := by
  have hcr : (close_reasoning (ensure_started s).1).1.in_reasoning = false := by
    apply close_reasoning_closes
    intro hx
    rw [ensure_started_reasoning_id]
    exact (inv_reasoning_clause hs (by simpa using hx)).1
  have hst : (close_reasoning (ensure_started s).1).1.started = true := by
    rw [(close_reasoning_in_reasoning_fields _).2.2.1, ensure_started_started]
  have hsp : (close_reasoning (ensure_started s).1).1.in_step = true := by
    rw [(close_reasoning_in_reasoning_fields _).2.2.2.1, ensure_started_in_step]
  simp only [data_branch]
  split
  · refine ⟨?_, Or.inl (by simpa using hcr), Or.inr (by simpa using hcr)⟩
    refine Or.inr ⟨?_, hst, hsp⟩
    simpa using strTruthy_new_id "t-" c (by decide)
  · next hcond =>
    have hto : (close_reasoning (ensure_started s).1).1.in_text = true := by
      simpa using hcond
    have hstx : s.in_text = true := by
      rw [(close_reasoning_in_reasoning_fields _).1,
        ensure_started_in_text] at hto
      exact hto
    refine ⟨?_, Or.inl hcr, Or.inr hcr⟩
    refine Or.inr ⟨?_, hst, hsp⟩
    rw [(close_reasoning_in_reasoning_fields _).2.1, ensure_started_text_id]
    exact (inv_text_clause hs hstx).1

lemma ctu_closed_flags (s : HandlerState) (hs : Inv s) :
    (close_text (close_reasoning (ensure_started s).1).1).1.in_reasoning = false ∧
    (close_text (close_reasoning (ensure_started s).1).1).1.in_text = false := by
  have hcr : (close_reasoning (ensure_started s).1).1.in_reasoning = false := by
    apply close_reasoning_closes
    intro hx
    rw [ensure_started_reasoning_id]
    exact (inv_reasoning_clause hs (by simpa using hx)).1
  constructor
  · rw [(close_text_fields _).1]
    exact hcr
  · apply close_text_closes
    intro hx
    rw [(close_reasoning_in_reasoning_fields _).2.1, ensure_started_text_id]
    rw [(close_reasoning_in_reasoning_fields _).1, ensure_started_in_text] at hx
    exact (inv_text_clause hs hx).1

lemma ctu_branch_inv (jl : String → Option PyJson) (s : HandlerState)
    (c : Nat) (tu : ToolUse) (hs : Inv s) : Inv (ctu_branch jl s c tu).1 := by
  obtain ⟨hcr, hct⟩ := ctu_closed_flags s hs
  simp only [ctu_branch]
  split
  · exact ⟨Or.inl hct, Or.inl hcr, Or.inl hct⟩
  · exact ⟨Or.inl hct, Or.inl hcr, Or.inl hct⟩

lemma inv_set_pending (s : HandlerState) (l : List String) (hs : Inv s) :
    Inv { s with pending_tool_ids := l } := hs

lemma complete_like_state (s : HandlerState) (hs : Inv s) :
    (close_text (close_reasoning s).1).1.in_reasoning = false ∧
    (close_text (close_reasoning s).1).1.in_text = false := by
  have hcr : (close_reasoning s).1.in_reasoning = false :=
    close_reasoning_closes s (fun hx => (inv_reasoning_clause hs hx).1)
  constructor
  · rw [(close_text_fields _).1]
    exact hcr
  · apply close_text_closes
    intro hx
    rw [(close_reasoning_in_reasoning_fields _).2.1]
    rw [(close_reasoning_in_reasoning_fields _).1] at hx
    exact (inv_text_clause hs hx).1

lemma complete_branch_flags (s : HandlerState) (c : Nat) (hs : Inv s) :
    (complete_branch s c).1.in_step = false ∧
    (complete_branch s c).1.in_reasoning = false ∧
    (complete_branch s c).1.in_text = false := by
  obtain ⟨hcr, hct⟩ := complete_like_state s hs
  simp only [complete_branch]
  split
  · exact ⟨rfl, hcr, hct⟩
  · next hcond =>
    exact ⟨by simpa using hcond, hcr, hct⟩

lemma result_branch_flags (s : HandlerState) (c : Nat) (r : AgentResult)
    (hs : Inv s) :
    (result_branch s c r).1.in_step = false ∧
    (result_branch s c r).1.in_reasoning = false ∧
    (result_branch s c r).1.in_text = false := by
  obtain ⟨hcr, hct⟩ := complete_like_state s hs
  simp only [result_branch]
  split
  · exact ⟨rfl, hcr, hct⟩
  · next hcond =>
    exact ⟨by simpa using hcond, hcr, hct⟩

lemma complete_branch_inv (s : HandlerState) (c : Nat) (hs : Inv s) :
    Inv (complete_branch s c).1 := by
  obtain ⟨-, h2, h3⟩ := complete_branch_flags s c hs
  exact ⟨Or.inl h3, Or.inl h2, Or.inl h3⟩

lemma result_branch_inv (s : HandlerState) (c : Nat) (r : AgentResult)
    (hs : Inv s) : Inv (result_branch s c r).1 := by
  obtain ⟨-, h2, h3⟩ := result_branch_flags s c r hs
  exact ⟨Or.inl h3, Or.inl h2, Or.inl h3⟩

/-- One `__call__` step preserves the protocol-state invariant. -/
lemma callback_preserves_inv (jl : String → Option PyJson) (s : HandlerState)
    (c : Nat) (e : Event) (s2 : HandlerState) (c2 : Nat) (out : List Frame)
    (h : callback jl s c e = Except.ok (s2, c2, out)) (hs : Inv s) :
    Inv s2 := by
  rcases callback_cases jl s c e s2 c2 out h with
    h1 | h1 | h1 | ⟨tu, -, h1⟩ | ⟨tse, -, h1⟩ | ⟨tr, -, h1⟩ | h1 | ⟨r, -, h1⟩ | h1
  · rw [show s2 = (ensure_started s).1 from congrArg (fun q => q.1) h1]
    exact ensure_started_inv s hs
  · rw [show s2 = (reasoning_branch s c e.reasoningText).1 from
      congrArg (fun q => q.1) h1]
    exact reasoning_branch_inv s c e.reasoningText hs
  · rw [show s2 = (data_branch s c e.data).1 from congrArg (fun q => q.1) h1]
    exact data_branch_inv s c e.data hs
  · rw [show s2 = (ctu_branch jl s c tu).1 from congrArg (fun q => q.1) h1]
    exact ctu_branch_inv jl s c tu hs
  · rw [show s2 = (tse_branch s c tse).1 from congrArg (fun q => q.1) h1]
    exact inv_set_pending s _ hs
  · rw [(tr_branch_shape s c tr s2 c2 out h1).1]
    exact inv_set_pending s _ hs
  · rw [show s2 = (complete_branch s c).1 from congrArg (fun q => q.1) h1]
    exact complete_branch_inv s c hs
  · rw [show s2 = (result_branch s c r).1 from congrArg (fun q => q.1) h1]
    exact result_branch_inv s c r hs
  · rw [show s2 = s from congrArg (fun q => q.1) h1]
    exact hs

/-- The invariant holds after any sequence of events. -/
lemma runFrom_inv (jl : String → Option PyJson) (es : List Event) :
    ∀ s c, Inv s → Inv (runFrom jl s c es).state := by
  induction es with
  | nil => intro s c hs; exact hs
  | cons e rest ih =>
    intro s c hs
    rw [runFrom]
    cases hcb : callback jl s c e with
    | ok v =>
      obtain ⟨s1, c1, out1⟩ := v
      exact ih s1 c1 (callback_preserves_inv jl s c e s1 c1 out1 hcb hs)
    | error m => exact hs

/-! ## No branch ever emits an `error` frame -/

lemma isOutputFor_not_error (tid : String) (f : Frame)
    (h : isOutputFor tid f = true) : isErrorFrame f = false := by
  cases f <;> simp_all [isOutputFor, isErrorFrame]

lemma callback_no_error_frames (jl : String → Option PyJson)
    (s : HandlerState) (c : Nat) (e : Event) (s2 : HandlerState) (c2 : Nat)
    (out : List Frame) (h : callback jl s c e = Except.ok (s2, c2, out)) :
    List.countP isErrorFrame out = 0 := by
  rcases callback_cases jl s c e s2 c2 out h with
    h1 | h1 | h1 | ⟨tu, -, h1⟩ | ⟨tse, -, h1⟩ | ⟨tr, -, h1⟩ | h1 | ⟨r, -, h1⟩ | h1
  · rw [show out = (ensure_started s).2 from congrArg (fun q => q.2.2) h1]
    exact ensure_started_countP _ _ rfl rfl
  · rw [show out = (reasoning_branch s c e.reasoningText).2.2 from
      congrArg (fun q => q.2.2) h1]
    exact reasoning_branch_countP _ _ _ _ rfl rfl (fun i => rfl) (fun i => rfl)
      (fun i d => rfl)
  · rw [show out = (data_branch s c e.data).2.2 from congrArg (fun q => q.2.2) h1]
    exact data_branch_countP _ _ _ _ rfl rfl (fun i => rfl) (fun i => rfl)
      (fun i d => rfl)
  · rw [show out = (ctu_branch jl s c tu).2.2 from congrArg (fun q => q.2.2) h1]
    exact ctu_branch_countP _ _ _ _ _ rfl rfl (fun i => rfl) (fun i => rfl)
      (fun a b => rfl) (fun a b i => rfl)
  · rw [show out = (tse_branch s c tse).2.2 from congrArg (fun q => q.2.2) h1]
    simp [tse_branch, List.countP_cons, isErrorFrame]
  · obtain ⟨-, -, f, hout, hf⟩ := tr_branch_shape s c tr s2 c2 out h1
    rw [hout]
    simp [List.countP_cons, isOutputFor_not_error _ f hf]
  · rw [show out = (complete_branch s c).2.2 from congrArg (fun q => q.2.2) h1]
    exact complete_branch_countP _ _ _ (fun i => rfl) (fun i => rfl) rfl
      (fun r => rfl) rfl
  · rw [show out = (result_branch s c r).2.2 from congrArg (fun q => q.2.2) h1]
    exact result_branch_countP _ _ _ _ (fun i => rfl) (fun i => rfl) rfl
      (fun fr => rfl) rfl
  · rw [show out = [] from congrArg (fun q => q.2.2) h1]
    rfl

/-- The translator pipeline never emits an `error` frame on any input. -/
lemma runFrom_no_error (jl : String → Option PyJson) (es : List Event) :
    ∀ s c, List.countP isErrorFrame (runFrom jl s c es).output = 0 := by
  induction es with
  | nil => intro s c; rfl
  | cons e rest ih =>
    intro s c
    rw [runFrom]
    cases hcb : callback jl s c e with
    | ok v =>
      obtain ⟨s1, c1, out1⟩ := v
      simp only [List.countP_append]
      rw [callback_no_error_frames jl s c e s1 c1 out1 hcb, ih s1 c1]
    | error m => rfl

/-! ## Pending-tool bookkeeping lemmas (per branch, then per step) -/

lemma reasoning_branch_pending (s : HandlerState) (c : Nat) (t : Option String) :
    (reasoning_branch s c t).1.pending_tool_ids = s.pending_tool_ids := by
  simp only [reasoning_branch]
  split <;> simp

lemma data_branch_pending (s : HandlerState) (c : Nat) (d : Option String) :
    (data_branch s c d).1.pending_tool_ids = s.pending_tool_ids := by
  simp only [data_branch]
  split <;> simp

lemma complete_branch_pending (s : HandlerState) (c : Nat) :
    (complete_branch s c).1.pending_tool_ids = s.pending_tool_ids := by
  simp only [complete_branch]
  split <;> simp

lemma result_branch_pending (s : HandlerState) (c : Nat) (r : AgentResult) :
    (result_branch s c r).1.pending_tool_ids = s.pending_tool_ids := by
  simp only [result_branch]
  split <;> simp

lemma isOutputFor_inj (a b : String) (f : Frame)
    (ha : isOutputFor a f = true) (hb : isOutputFor b f = true) : a = b := by
  cases f <;> simp_all [isOutputFor, beq_iff_eq]

/-- Step lemma for pair accounting: every step emits equally many
`tool-input-start` and `tool-input-available` frames for any given id. -/
lemma callback_pair_counts (jl : String → Option PyJson) (s : HandlerState)
    (c : Nat) (e : Event) (s2 : HandlerState) (c2 : Nat) (out : List Frame)
    (h : callback jl s c e = Except.ok (s2, c2, out)) (tid : String) :
    List.countP (isInputStartFor tid) out =
      List.countP (isInputAvailableFor tid) out := by
  rcases callback_cases jl s c e s2 c2 out h with
    h1 | h1 | h1 | ⟨tu, -, h1⟩ | ⟨tse, -, h1⟩ | ⟨tr, -, h1⟩ | h1 | ⟨r, -, h1⟩ | h1
  · rw [show out = (ensure_started s).2 from congrArg (fun q => q.2.2) h1]
    rw [ensure_started_countP _ _ rfl rfl, ensure_started_countP _ _ rfl rfl]
  · rw [show out = (reasoning_branch s c e.reasoningText).2.2 from
      congrArg (fun q => q.2.2) h1]
    rw [reasoning_branch_countP _ _ _ _ rfl rfl (fun i => rfl) (fun i => rfl)
      (fun i d => rfl), reasoning_branch_countP _ _ _ _ rfl rfl (fun i => rfl)
      (fun i => rfl) (fun i d => rfl)]
  · rw [show out = (data_branch s c e.data).2.2 from congrArg (fun q => q.2.2) h1]
    rw [data_branch_countP _ _ _ _ rfl rfl (fun i => rfl) (fun i => rfl)
      (fun i d => rfl), data_branch_countP _ _ _ _ rfl rfl (fun i => rfl)
      (fun i => rfl) (fun i d => rfl)]
  · rw [show out = (ctu_branch jl s c tu).2.2 from congrArg (fun q => q.2.2) h1]
    simp only [ctu_branch]
    split
    · simp [List.countP_append, List.countP_cons,
        ensure_started_countP (isInputStartFor tid) _ rfl rfl,
        ensure_started_countP (isInputAvailableFor tid) _ rfl rfl,
        close_reasoning_countP (isInputStartFor tid) _ (fun i => rfl),
        close_reasoning_countP (isInputAvailableFor tid) _ (fun i => rfl),
        close_text_countP (isInputStartFor tid) _ (fun i => rfl),
        close_text_countP (isInputAvailableFor tid) _ (fun i => rfl),
        isInputStartFor, isInputAvailableFor]
    · simp [List.countP_append,
        ensure_started_countP (isInputStartFor tid) _ rfl rfl,
        ensure_started_countP (isInputAvailableFor tid) _ rfl rfl,
        close_reasoning_countP (isInputStartFor tid) _ (fun i => rfl),
        close_reasoning_countP (isInputAvailableFor tid) _ (fun i => rfl),
        close_text_countP (isInputStartFor tid) _ (fun i => rfl),
        close_text_countP (isInputAvailableFor tid) _ (fun i => rfl)]
  · rw [show out = (tse_branch s c tse).2.2 from congrArg (fun q => q.2.2) h1]
    simp [tse_branch, List.countP_cons, isInputStartFor, isInputAvailableFor]
  · obtain ⟨-, -, f, hout, hf⟩ := tr_branch_shape s c tr s2 c2 out h1
    rw [hout]
    cases f <;> simp_all [isOutputFor, isInputStartFor, isInputAvailableFor,
      List.countP_cons]
  · rw [show out = (complete_branch s c).2.2 from congrArg (fun q => q.2.2) h1]
    rw [complete_branch_countP _ _ _ (fun i => rfl) (fun i => rfl) rfl
      (fun fr => rfl) rfl, complete_branch_countP _ _ _ (fun i => rfl)
      (fun i => rfl) rfl (fun fr => rfl) rfl]
  · rw [show out = (result_branch s c r).2.2 from congrArg (fun q => q.2.2) h1]
    rw [result_branch_countP _ _ _ _ (fun i => rfl) (fun i => rfl) rfl
      (fun fr => rfl) rfl, result_branch_countP _ _ _ _ (fun i => rfl)
      (fun i => rfl) rfl (fun fr => rfl) rfl]
  · rw [show out = [] from congrArg (fun q => q.2.2) h1]
    rfl

/-- Step lemma: an id pending after a step was pending before, or had a
`tool-input-start` frame emitted for it during the step. -/
lemma callback_pending_from (jl : String → Option PyJson) (s : HandlerState)
    (c : Nat) (e : Event) (s2 : HandlerState) (c2 : Nat) (out : List Frame)
    (h : callback jl s c e = Except.ok (s2, c2, out)) (tid : String)
    (hmem : tid ∈ s2.pending_tool_ids) :
    tid ∈ s.pending_tool_ids ∨ 1 ≤ List.countP (isInputStartFor tid) out := by
  rcases callback_cases jl s c e s2 c2 out h with
    h1 | h1 | h1 | ⟨tu, -, h1⟩ | ⟨tse, -, h1⟩ | ⟨tr, -, h1⟩ | h1 | ⟨r, -, h1⟩ | h1
  · rw [show s2 = (ensure_started s).1 from congrArg (fun q => q.1) h1,
      ensure_started_pending] at hmem
    exact Or.inl hmem
  · rw [show s2 = (reasoning_branch s c e.reasoningText).1 from
      congrArg (fun q => q.1) h1, reasoning_branch_pending] at hmem
    exact Or.inl hmem
  · rw [show s2 = (data_branch s c e.data).1 from congrArg (fun q => q.1) h1,
      data_branch_pending] at hmem
    exact Or.inl hmem
  · rw [show s2 = (ctu_branch jl s c tu).1 from congrArg (fun q => q.1) h1]
      at hmem
    have hout : out = (ctu_branch jl s c tu).2.2 := congrArg (fun q => q.2.2) h1
    revert hmem
    rw [hout]
    simp only [ctu_branch]
    split
    · next hnotmem =>
      intro hmem
      simp only [HandlerState.pending_tool_ids] at hmem
      rw [show ((close_text (close_reasoning (ensure_started s).1).1).1).pending_tool_ids
          = s.pending_tool_ids by
        rw [(close_text_fields _).2.2.2.2,
          (close_reasoning_in_reasoning_fields _).2.2.2.2,
          ensure_started_pending]] at hmem hnotmem
      rcases mem_setAdd.mp hmem with hin | rfl
      · exact Or.inl hin
      · refine Or.inr ?_
        simp [List.countP_append, List.countP_cons, isInputStartFor]
        omega
    · next hismem =>
      intro hmem
      rw [(close_text_fields _).2.2.2.2,
        (close_reasoning_in_reasoning_fields _).2.2.2.2,
        ensure_started_pending] at hmem
      exact Or.inl hmem
  · rw [show s2 = (tse_branch s c tse).1 from congrArg (fun q => q.1) h1] at hmem
    simp only [tse_branch] at hmem
    exact Or.inl (mem_setDiscard.mp hmem).1
  · rw [(tr_branch_shape s c tr s2 c2 out h1).1] at hmem
    exact Or.inl (mem_setDiscard.mp hmem).1
  · rw [show s2 = (complete_branch s c).1 from congrArg (fun q => q.1) h1,
      complete_branch_pending] at hmem
    exact Or.inl hmem
  · rw [show s2 = (result_branch s c r).1 from congrArg (fun q => q.1) h1,
      result_branch_pending] at hmem
    exact Or.inl hmem
  · rw [show s2 = s from congrArg (fun q => q.1) h1] at hmem
    exact Or.inl hmem

/-- Step lemma: a step that emits a `tool-output-*` frame for an id leaves
that id not pending (the discard accompanies the emission). -/
lemma callback_output_removes (jl : String → Option PyJson) (s : HandlerState)
    (c : Nat) (e : Event) (s2 : HandlerState) (c2 : Nat) (out : List Frame)
    (h : callback jl s c e = Except.ok (s2, c2, out)) (tid : String)
    (hcount : List.countP (isOutputFor tid) out ≠ 0) :
    tid ∉ s2.pending_tool_ids := by
  rcases callback_cases jl s c e s2 c2 out h with
    h1 | h1 | h1 | ⟨tu, -, h1⟩ | ⟨tse, -, h1⟩ | ⟨tr, -, h1⟩ | h1 | ⟨r, -, h1⟩ | h1
  · exact absurd (by
      rw [show out = (ensure_started s).2 from congrArg (fun q => q.2.2) h1]
      exact ensure_started_countP _ _ rfl rfl) hcount
  · exact absurd (by
      rw [show out = (reasoning_branch s c e.reasoningText).2.2 from
        congrArg (fun q => q.2.2) h1]
      exact reasoning_branch_countP _ _ _ _ rfl rfl (fun i => rfl)
        (fun i => rfl) (fun i d => rfl)) hcount
  · exact absurd (by
      rw [show out = (data_branch s c e.data).2.2 from
        congrArg (fun q => q.2.2) h1]
      exact data_branch_countP _ _ _ _ rfl rfl (fun i => rfl) (fun i => rfl)
        (fun i d => rfl)) hcount
  · exact absurd (by
      rw [show out = (ctu_branch jl s c tu).2.2 from
        congrArg (fun q => q.2.2) h1]
      exact ctu_branch_countP _ _ _ _ _ rfl rfl (fun i => rfl) (fun i => rfl)
        (fun a b => rfl) (fun a b i => rfl)) hcount
  · have hout : out = (tse_branch s c tse).2.2 := congrArg (fun q => q.2.2) h1
    rw [hout] at hcount
    simp only [tse_branch, List.countP_cons, List.countP_nil, isOutputFor] at hcount
    have htid : ((tse.tool_use.getD {}).toolUseId.getD "unknown") = tid := by
      by_contra hne
      simp [beq_eq_false_iff_ne, hne] at hcount
    rw [show s2 = (tse_branch s c tse).1 from congrArg (fun q => q.1) h1]
    simp only [tse_branch]
    rw [← htid]
    exact not_mem_setDiscard_self _ _
  · obtain ⟨hs2, -, f, hout, hf⟩ := tr_branch_shape s c tr s2 c2 out h1
    rw [hout] at hcount
    have hft : isOutputFor tid f = true := by
      by_contra hne
      simp [List.countP_cons, Bool.eq_false_iff.mpr hne] at hcount
    have htid : tr.toolUseId.getD "unknown" = tid := isOutputFor_inj _ _ f hf hft
    rw [hs2]
    simp only [HandlerState.pending_tool_ids]
    rw [← htid]
    exact not_mem_setDiscard_self _ _
  · exact absurd (by
      rw [show out = (complete_branch s c).2.2 from congrArg (fun q => q.2.2) h1]
      exact complete_branch_countP _ _ _ (fun i => rfl) (fun i => rfl) rfl
        (fun fr => rfl) rfl) hcount
  · exact absurd (by
      rw [show out = (result_branch s c r).2.2 from congrArg (fun q => q.2.2) h1]
      exact result_branch_countP _ _ _ _ (fun i => rfl) (fun i => rfl) rfl
        (fun fr => rfl) rfl) hcount
  · exact absurd (by
      rw [show out = [] from congrArg (fun q => q.2.2) h1]
      rfl) hcount

/-- Step lemma: an id removed from `pendingTools` during a step had a
`tool-output-*` frame emitted for it in that very step. -/
lemma callback_removal_has_output (jl : String → Option PyJson)
    (s : HandlerState) (c : Nat) (e : Event) (s2 : HandlerState) (c2 : Nat)
    (out : List Frame) (h : callback jl s c e = Except.ok (s2, c2, out))
    (tid : String) (hin : tid ∈ s.pending_tool_ids)
    (hgone : tid ∉ s2.pending_tool_ids) :
    List.countP (isOutputFor tid) out ≠ 0 := by
  rcases callback_cases jl s c e s2 c2 out h with
    h1 | h1 | h1 | ⟨tu, -, h1⟩ | ⟨tse, -, h1⟩ | ⟨tr, -, h1⟩ | h1 | ⟨r, -, h1⟩ | h1
  · exact absurd (by
      rw [show s2 = (ensure_started s).1 from congrArg (fun q => q.1) h1,
        ensure_started_pending]
      exact hin) hgone
  · exact absurd (by
      rw [show s2 = (reasoning_branch s c e.reasoningText).1 from
        congrArg (fun q => q.1) h1, reasoning_branch_pending]
      exact hin) hgone
  · exact absurd (by
      rw [show s2 = (data_branch s c e.data).1 from congrArg (fun q => q.1) h1,
        data_branch_pending]
      exact hin) hgone
  · exact absurd (by
      rw [show s2 = (ctu_branch jl s c tu).1 from congrArg (fun q => q.1) h1]
      simp only [ctu_branch]
      split
      · simp only [HandlerState.pending_tool_ids]
        refine mem_setAdd.mpr (Or.inl ?_)
        rw [(close_text_fields _).2.2.2.2,
          (close_reasoning_in_reasoning_fields _).2.2.2.2, ensure_started_pending]
        exact hin
      · rw [(close_text_fields _).2.2.2.2,
          (close_reasoning_in_reasoning_fields _).2.2.2.2, ensure_started_pending]
        exact hin) hgone
  · rw [show s2 = (tse_branch s c tse).1 from congrArg (fun q => q.1) h1] at hgone
    simp only [tse_branch] at hgone
    have htid : tid = (tse.tool_use.getD {}).toolUseId.getD "unknown" := by
      by_contra hne
      exact hgone (mem_setDiscard.mpr ⟨hin, hne⟩)
    rw [show out = (tse_branch s c tse).2.2 from congrArg (fun q => q.2.2) h1]
    simp [tse_branch, List.countP_cons, isOutputFor, htid]
  · obtain ⟨hs2, -, f, hout, hf⟩ := tr_branch_shape s c tr s2 c2 out h1
    rw [hs2] at hgone
    simp only [HandlerState.pending_tool_ids] at hgone
    have htid : tid = tr.toolUseId.getD "unknown" := by
      by_contra hne
      exact hgone (mem_setDiscard.mpr ⟨hin, hne⟩)
    rw [hout]
    simp [List.countP_cons, htid ▸ hf]
  · exact absurd (by
      rw [show s2 = (complete_branch s c).1 from congrArg (fun q => q.1) h1,
        complete_branch_pending]
      exact hin) hgone
  · exact absurd (by
      rw [show s2 = (result_branch s c r).1 from congrArg (fun q => q.1) h1,
        result_branch_pending]
      exact hin) hgone
  · exact absurd (by
      rw [show s2 = s from congrArg (fun q => q.1) h1]
      exact hin) hgone

/-- Over a whole run: `tool-input-start` and `tool-input-available` frames
for any id are emitted in equal numbers. -/
lemma runFrom_pair_counts (jl : String → Option PyJson) (es : List Event) :
    ∀ s c tid, List.countP (isInputStartFor tid) (runFrom jl s c es).output =
      List.countP (isInputAvailableFor tid) (runFrom jl s c es).output := by
  induction es with
  | nil => intro s c tid; rfl
  | cons e rest ih =>
    intro s c tid
    rw [runFrom]
    cases hcb : callback jl s c e with
    | ok v =>
      obtain ⟨s1, c1, out1⟩ := v
      simp only [List.countP_append]
      rw [callback_pair_counts jl s c e s1 c1 out1 hcb tid, ih s1 c1 tid]
    | error m => rfl

/-- Over a whole run: an id pending at the end was pending at the start or
was announced (a `tool-input-start` frame exists for it). -/
lemma runFrom_pending_announced (jl : String → Option PyJson) (es : List Event) :
    ∀ s c tid, tid ∈ (runFrom jl s c es).state.pending_tool_ids →
      tid ∈ s.pending_tool_ids ∨
        1 ≤ List.countP (isInputStartFor tid) (runFrom jl s c es).output := by
  induction es with
  | nil => intro s c tid h; exact Or.inl h
  | cons e rest ih =>
    intro s c tid hmem
    rw [runFrom] at hmem ⊢
    cases hcb : callback jl s c e with
    | ok v =>
      obtain ⟨s1, c1, out1⟩ := v
      rw [hcb] at hmem
      simp only at hmem
      rcases ih s1 c1 tid hmem with hin | hcount
      · rcases callback_pending_from jl s c e s1 c1 out1 hcb tid hin with
          hin0 | hcount0
        · exact Or.inl hin0
        · refine Or.inr ?_
          simp only [List.countP_append]
          omega
      · refine Or.inr ?_
        simp only [List.countP_append]
        omega
    | error m =>
      rw [hcb] at hmem
      exact Or.inl hmem

/-! ## Spec-side definitions and further helpers -/

/-- The stop-reason mapping exactly as the specification words it:
`end_turn`/`stop_sequence` map to `stop`, `max_tokens` to `length`,
`tool_use` to `tool-calls`, anything else or absent to `stop`.
(Spec-side definition, to be compared with `reason_map_get`.) -/
def specFinishReason : Option String → String
  | none => "stop"
  | some r =>
    if r = "end_turn" then "stop"
    else if r = "stop_sequence" then "stop"
    else if r = "max_tokens" then "length"
    else if r = "tool_use" then "tool-calls"
    else "stop"

/-- The code's stop-reason mapping agrees with the specification's. -/
lemma reason_map_agrees (ro : Option String) :
    reason_map_get (ro.getD "stop") = specFinishReason ro := by
  match ro with
  | none => rfl
  | some x =>
    simp only [Option.getD, specFinishReason]
    by_cases h1 : x = "end_turn"
    · subst h1; rfl
    · by_cases h2 : x = "stop_sequence"
      · subst h2; rfl
      · by_cases h3 : x = "max_tokens"
        · subst h3; rfl
        · by_cases h4 : x = "tool_use"
          · subst h4; rfl
          · have b1 : (x == "end_turn") = false := beq_eq_false_iff_ne.mpr h1
            have b2 : (x == "stop_sequence") = false := beq_eq_false_iff_ne.mpr h2
            have b3 : (x == "max_tokens") = false := beq_eq_false_iff_ne.mpr h3
            have b4 : (x == "tool_use") = false := beq_eq_false_iff_ne.mpr h4
            simp [reason_map_get, reason_map, List.lookup, b1, b2, b3, b4,
              h1, h2, h3, h4]

/-- Does any guard of the `__call__` dispatch accept this event?
(Python truthiness of each checked key, in dispatch order.) -/
def recognized (e : Event) : Bool :=
  e.init_event_loop || e.start_event_loop ||
  (strTruthy e.reasoningText && e.reasoning) || strTruthy e.data ||
  (ctu_guard e).isSome || e.tool_stream_event.isSome || e.tool_result.isSome ||
  e.complete || e.result.isSome

/-- A `tool_result` payload on which the error path crashes: status
`"error"` with a non-empty content list whose first element is not a dict
(`content[0].get` then raises `AttributeError`). -/
def badErrorContent (tr : ToolResult) : Bool :=
  (tr.status.getD "success" == "error") &&
  (match tr.content.getD [] with
   | [] => false
   | c0 :: _ =>
     match c0 with
     | PyJson.obj _ => false
     | _ => true)

/-- Exactly the events on which `__call__` raises: the dispatch reaches the
`tool_result` branch and the payload has crashing error content. -/
def raisesOn (e : Event) : Bool :=
  !e.init_event_loop && !e.start_event_loop &&
  !(strTruthy e.reasoningText && e.reasoning) && !(strTruthy e.data) &&
  !(ctu_guard e).isSome && !e.tool_stream_event.isSome &&
  (match e.tool_result with
   | some tr => badErrorContent tr
   | none => false)

lemma tr_branch_ok_iff (s : HandlerState) (c : Nat) (tr : ToolResult) :
    resOk (tr_branch s c tr) = true ↔ badErrorContent tr = false := by
  simp only [tr_branch, badErrorContent]
  by_cases hst : tr.content.getD [] = []
  · rw [hst]
    split
    · simp [resOk]
    · simp [resOk]
  · obtain ⟨c0, rest, hc⟩ : ∃ c0 rest, tr.content.getD [] = c0 :: rest := by
      cases hck : tr.content.getD [] with
      | nil => exact absurd hck hst
      | cons a b => exact ⟨a, b, rfl⟩
    rw [hc]
    split
    · next herr =>
      have hbe : (tr.status.getD "success" == "error") = true := by
        simp [herr]
      rw [hbe]
      cases c0 with
      | obj fields =>
        simp only [pyGet]
        cases fields.lookup "text" <;> simp [resOk]
      | null => simp [pyGet, resOk]
      | bool b => simp [pyGet, resOk]
      | num n => simp [pyGet, resOk]
      | str s0 => simp [pyGet, resOk]
      | arr l => simp [pyGet, resOk]
    · next herr =>
      have hbe : (tr.status.getD "success" == "error") = false := by
        simp only [beq_eq_false_iff_ne, ne_eq]
        exact herr
      rw [hbe]
      simp [resOk]

/-- Unrecognized event shapes are ignored: no frames, state unchanged. -/
lemma callback_unrecognized (jl : String → Option PyJson) (s : HandlerState)
    (c : Nat) (e : Event) (h : recognized e = false) :
    callback jl s c e = Except.ok (s, c, []) := by
  simp only [recognized, Bool.or_eq_false_iff] at h
  obtain ⟨⟨⟨⟨⟨⟨⟨⟨h1, h2⟩, h3⟩, h4⟩, h5⟩, h6⟩, h7⟩, h8⟩, h9⟩ := h
  cases hcg : ctu_guard e with
  | some tu => rw [hcg] at h5; simp at h5
  | none =>
  cases hts : e.tool_stream_event with
  | some tse => rw [hts] at h6; simp at h6
  | none =>
  cases htr : e.tool_result with
  | some tr => rw [htr] at h7; simp at h7
  | none =>
  cases hres : e.result with
  | some r => rw [hres] at h9; simp at h9
  | none =>
  simp [callback, h1, h2, h3, h4, h8, hcg, hts, htr, hres]

/-- Does a frame announce a tool (`tool-input-start`)? -/
def isAnyInputStart : Frame → Bool
  | Frame.toolInputStart _ _ => true
  | _ => false

/-- `tool-input-start` frames originate only from the tool-use branch,
whose guard requires a truthy `name`. -/
lemma callback_inputStart_origin (jl : String → Option PyJson)
    (s : HandlerState) (c : Nat) (e : Event) (s2 : HandlerState) (c2 : Nat)
    (out : List Frame) (h : callback jl s c e = Except.ok (s2, c2, out))
    (hcount : List.countP isAnyInputStart out ≠ 0) :
    ∃ tu, ctu_guard e = some tu := by
  rcases callback_cases jl s c e s2 c2 out h with
    h1 | h1 | h1 | ⟨tu, heq, h1⟩ | ⟨tse, -, h1⟩ | ⟨tr, -, h1⟩ | h1 | ⟨r, -, h1⟩ | h1
  · exact absurd (by
      rw [show out = (ensure_started s).2 from congrArg (fun q => q.2.2) h1]
      exact ensure_started_countP _ _ rfl rfl) hcount
  · exact absurd (by
      rw [show out = (reasoning_branch s c e.reasoningText).2.2 from
        congrArg (fun q => q.2.2) h1]
      exact reasoning_branch_countP _ _ _ _ rfl rfl (fun i => rfl)
        (fun i => rfl) (fun i d => rfl)) hcount
  · exact absurd (by
      rw [show out = (data_branch s c e.data).2.2 from
        congrArg (fun q => q.2.2) h1]
      exact data_branch_countP _ _ _ _ rfl rfl (fun i => rfl) (fun i => rfl)
        (fun i d => rfl)) hcount
  · exact ⟨tu, heq⟩
  · exact absurd (by
      rw [show out = (tse_branch s c tse).2.2 from congrArg (fun q => q.2.2) h1]
      simp [tse_branch, List.countP_cons, isAnyInputStart]) hcount
  · obtain ⟨-, -, f, hout, hf⟩ := tr_branch_shape s c tr s2 c2 out h1
    refine absurd ?_ hcount
    rw [hout]
    cases f <;> simp_all [isOutputFor, isAnyInputStart, List.countP_cons]
  · exact absurd (by
      rw [show out = (complete_branch s c).2.2 from congrArg (fun q => q.2.2) h1]
      exact complete_branch_countP _ _ _ (fun i => rfl) (fun i => rfl) rfl
        (fun fr => rfl) rfl) hcount
  · exact absurd (by
      rw [show out = (result_branch s c r).2.2 from congrArg (fun q => q.2.2) h1]
      exact result_branch_countP _ _ _ _ (fun i => rfl) (fun i => rfl) rfl
        (fun fr => rfl) rfl) hcount
  · exact absurd (by
      rw [show out = [] from congrArg (fun q => q.2.2) h1]
      rfl) hcount

/-- Explicit form of the tool-use branch for a fresh, explicitly-identified
tool id. -/
lemma ctu_branch_fresh_eq (jl : String → Option PyJson) (s : HandlerState)
    (c : Nat) (tu : ToolUse) (tid : String) (hid : tu.toolUseId = some tid)
    (hfresh : tid ∉ s.pending_tool_ids) :
    ctu_branch jl s c tu =
      ({ (close_text (close_reasoning (ensure_started s).1).1).1 with
          pending_tool_ids := setAdd s.pending_tool_ids tid }, c + 1,
       (ensure_started s).2 ++ (close_reasoning (ensure_started s).1).2 ++
         (close_text (close_reasoning (ensure_started s).1).1).2 ++
         [Frame.toolInputStart tid (tu.name.getD ""),
          Frame.toolInputAvailable tid (tu.name.getD "")
            (parse_tool_input jl (tu.input.getD (PyJson.obj [])))]) := by
  have hp : (close_text (close_reasoning (ensure_started s).1).1).1.pending_tool_ids
      = s.pending_tool_ids := by
    rw [(close_text_fields _).2.2.2.2,
      (close_reasoning_in_reasoning_fields _).2.2.2.2, ensure_started_pending]
  simp only [ctu_branch, hid, Option.getD_some, hp, new_id]
  rw [if_pos hfresh]

/-- The tool-use branch on an already-pending id (from a state where the
stream is running and both close guards are inactive) emits nothing and
only advances the uuid counter. -/
lemma ctu_branch_second (jl : String → Option PyJson) (s1 : HandlerState)
    (c1 : Nat) (tu : ToolUse) (tid : String) (hid : tu.toolUseId = some tid)
    (hstart : s1.started = true) (hstep : s1.in_step = true)
    (hrg : (s1.in_reasoning && strTruthy s1.reasoning_id) = false)
    (htg : (s1.in_text && strTruthy s1.text_id) = false)
    (hmem : tid ∈ s1.pending_tool_ids) :
    ctu_branch jl s1 c1 tu = (s1, c1 + 1, []) := by
  simp only [ctu_branch, ensure_started_of_running s1 hstart hstep,
    close_reasoning_noop_of s1 hrg, close_text_noop_of s1 htg, hid,
    Option.getD_some, new_id]
  rw [if_neg (by simpa using hmem)]
  simp

/-- Explicit form of the reasoning branch when a text block is open in a
reachable state: close the text block first, then open reasoning. -/
lemma reasoning_branch_switch (s : HandlerState) (c : Nat) (t : String)
    (hs : Inv s) (ht : s.in_text = true) :
    reasoning_branch s c (some t) =
      ({ s with in_text := false, text_id := none, in_reasoning := true,
                reasoning_id := some (new_id "r-" c).1 }, (new_id "r-" c).2,
       [Frame.textEnd s.text_id, Frame.reasoningStart (some (new_id "r-" c).1),
        Frame.reasoningDelta (some (new_id "r-" c).1) t]) := by
  obtain ⟨htid, hst, hsp⟩ := inv_text_clause hs ht
  have hmut : s.in_reasoning = false := by
    rcases hs.2.2 with h | h
    · rw [ht] at h; cases h
    · exact h
  have hcte : close_text s =
      ({ s with in_text := false, text_id := none },
       [Frame.textEnd s.text_id]) := by
    unfold close_text
    rw [ht, htid]
    rfl
  simp only [reasoning_branch, ensure_started_of_running s hst hsp, hcte]
  simp [hmut, new_id]

/-- Explicit form of the text branch when a reasoning block is open in a
reachable state: close the reasoning block first, then open text. -/
lemma data_branch_switch (s : HandlerState) (c : Nat) (d : String)
    (hs : Inv s) (hr : s.in_reasoning = true) :
    data_branch s c (some d) =
      ({ s with in_reasoning := false, reasoning_id := none, in_text := true,
                text_id := some (new_id "t-" c).1 }, (new_id "t-" c).2,
       [Frame.reasoningEnd s.reasoning_id,
        Frame.textStart (some (new_id "t-" c).1),
        Frame.textDelta (some (new_id "t-" c).1) d]) := by
  obtain ⟨hrid, hst, hsp⟩ := inv_reasoning_clause hs hr
  have hmut : s.in_text = false := by
    rcases hs.2.2 with h | h
    · exact h
    · rw [hr] at h; cases h
  have hcre : close_reasoning s =
      ({ s with in_reasoning := false, reasoning_id := none },
       [Frame.reasoningEnd s.reasoning_id]) := by
    unfold close_reasoning
    rw [hr, hrid]
    rfl
  simp only [data_branch, ensure_started_of_running s hst hsp, hcre]
  simp [hmut, new_id]

/-! ## The claims -/

/-- Claim C1, counterexample: after the terminal sequence (`finish`,
`done`) has been emitted by a `complete` event, a second `complete` event
is not a no-op — it re-emits `finish` and `done`, so the two-event run
produces strictly more frames than the one-event run.  The terminal state
is therefore not absorbing. -/
theorem terminal_sequence_not_idempotent_cx :
    (runFrom jlNone initState 0
      [{ complete := true }, { complete := true }]).output =
      [Frame.finish (some "stop"), Frame.done,
       Frame.finish (some "stop"), Frame.done] ∧
    (runFrom jlNone initState 0 [{ complete := true }]).output =
      [Frame.finish (some "stop"), Frame.done] ∧
    (runFrom jlNone initState 0
      [{ complete := true }, { complete := true }]).output ≠
      (runFrom jlNone initState 0 [{ complete := true }]).output := by
  refine ⟨rfl, rfl, ?_⟩
  intro hcontra
  have hlen := congrArg List.length hcontra
  rw [show (runFrom jlNone initState 0
      [{ complete := true }, { complete := true }]).output.length = 4 from rfl,
    show (runFrom jlNone initState 0
      [{ complete := true }]).output.length = 2 from rfl] at hlen
  omega

/-- Claim C1 (amended): once the terminal sequence has been emitted (the
step is closed and no block is open), a further completion-type event
(`complete` or `result`) emits no step or block frames and leaves the
handler state unchanged, but re-emits exactly the `finish` and `done`
frames — it is not a no-op, and the terminal state is not absorbing (a
subsequent content event can reopen a step).  Every state produced by a
`complete` event from a reachable state satisfies the terminal-state
hypotheses. -/
theorem second_completion_event_reemits (jl : String → Option PyJson)
    (s : HandlerState) (c : Nat) (h1 : s.in_step = false)
    (h2 : s.in_reasoning = false) (h3 : s.in_text = false) :
    callback jl s c { complete := true } =
      Except.ok (s, c, [Frame.finish (some "stop"), Frame.done]) ∧
    (∀ r : AgentResult, callback jl s c { result := some r } =
      Except.ok (s, c,
        [Frame.finish (some (reason_map_get (r.stop_reason.getD "stop"))),
         Frame.done])) ∧
    (∀ s0 c0, Inv s0 →
      (resState (callback jl s0 c0 { complete := true })).in_step = false ∧
      (resState (callback jl s0 c0 { complete := true })).in_reasoning = false ∧
      (resState (callback jl s0 c0 { complete := true })).in_text = false) := by
  have hcr := close_reasoning_noop_of s (by rw [h2]; rfl)
  have hct := close_text_noop_of s (by rw [h3]; rfl)
  refine ⟨?_, ?_, ?_⟩
  · show Except.ok (complete_branch s c) = _
    simp [complete_branch, hcr, hct, h1]
  · intro r
    show Except.ok (result_branch s c r) = _
    simp [result_branch, hcr, hct, h1]
  · intro s0 c0 hs0
    show ((complete_branch s0 c0).1.in_step = false) ∧ _ ∧ _
    exact complete_branch_flags s0 c0 hs0

/-- Witness for `second_completion_event_reemits` at the freshly-initialised
(hence terminal-flag) state. -/
theorem second_completion_event_reemits_witness :
    callback jlNone initState 0 { complete := true } =
      Except.ok (initState, 0, [Frame.finish (some "stop"), Frame.done]) ∧
    callback jlNone initState 0 { result := some ⟨some "max_tokens"⟩ } =
      Except.ok (initState, 0,
        [Frame.finish (some "length"), Frame.done]) := by
  obtain ⟨hc, hr, -⟩ :=
    second_completion_event_reemits jlNone initState 0 rfl rfl rfl
  exact ⟨hc, hr ⟨some "max_tokens"⟩⟩

/-- Claim C2: between processed events at most one of the text and
reasoning blocks is open (with every reachable state satisfying the full
protocol invariant `Inv`); a reasoning delta arriving while a text block is
open emits `text-end` and clears the text block before `reasoning-start`,
and symmetrically a text delta arriving while a reasoning block is open
emits `reasoning-end` first. -/
theorem mutual_exclusion_of_blocks (jl : String → Option PyJson) :
    (∀ es, Inv (runFrom jl initState 0 es).state ∧
      ((runFrom jl initState 0 es).state.in_text = false ∨
       (runFrom jl initState 0 es).state.in_reasoning = false)) ∧
    (∀ s c t, Inv s → s.in_text = true → strTruthy (some t) = true →
      callback jl s c { reasoningText := some t, reasoning := true } =
        Except.ok
          ({ s with in_text := false, text_id := none, in_reasoning := true,
                    reasoning_id := some (new_id "r-" c).1 }, (new_id "r-" c).2,
           [Frame.textEnd s.text_id,
            Frame.reasoningStart (some (new_id "r-" c).1),
            Frame.reasoningDelta (some (new_id "r-" c).1) t])) ∧
    (∀ s c d, Inv s → s.in_reasoning = true → strTruthy (some d) = true →
      callback jl s c { data := some d } =
        Except.ok
          ({ s with in_reasoning := false, reasoning_id := none,
                    in_text := true, text_id := some (new_id "t-" c).1 },
           (new_id "t-" c).2,
           [Frame.reasoningEnd s.reasoning_id,
            Frame.textStart (some (new_id "t-" c).1),
            Frame.textDelta (some (new_id "t-" c).1) d])) := by
  refine ⟨?_, ?_, ?_⟩
  · intro es
    have hinv := runFrom_inv jl es initState 0 inv_initState
    exact ⟨hinv, inv_mutex hinv⟩
  · intro s c t hs ht htr
    have hred : callback jl s c { reasoningText := some t, reasoning := true } =
        Except.ok (reasoning_branch s c (some t)) := by
      simp [callback, htr]
    rw [hred, reasoning_branch_switch s c t hs ht]
  · intro s c d hs hr hdt
    have hred : callback jl s c { data := some d } =
        Except.ok (data_branch s c (some d)) := by
      simp [callback, hdt]
    rw [hred, data_branch_switch s c d hs hr]

/-- Witness for `mutual_exclusion_of_blocks` on a concrete open-text state
and a concrete run. -/
theorem mutual_exclusion_of_blocks_witness :
    Inv (runFrom jlNone initState 0 [{ data := some "x" }]).state ∧
    callback jlNone ⟨true, true, false, true, none, some "t0", []⟩ 5
        { reasoningText := some "mm", reasoning := true } =
      Except.ok (⟨true, true, true, false, some "r-5", none, []⟩, 6,
        [Frame.textEnd (some "t0"), Frame.reasoningStart (some "r-5"),
         Frame.reasoningDelta (some "r-5") "mm"]) := by
  have h := mutual_exclusion_of_blocks jlNone
  refine ⟨(h.1 [{ data := some "x" }]).1, ?_⟩
  exact h.2.1 ⟨true, true, false, true, none, some "t0", []⟩ 5 "mm"
    ⟨Or.inr ⟨rfl, rfl, rfl⟩, Or.inl rfl, Or.inr rfl⟩ rfl rfl

/-- Claim C3, counterexample: when the blocking agent run raises after the
handler has only emitted the `start`/`start-step` frames, the
client-visible stream is exactly those frames: no `error` frame is emitted
(count 0, not 1) and the stream does not end with `done`. -/
theorem orchestrator_swallows_failure_cx :
    orchestrate jlNone [{ init_event_loop := true }] true =
      [Frame.start none, Frame.startStep] ∧
    List.countP isErrorFrame
      (orchestrate jlNone [{ init_event_loop := true }] true) = 0 ∧
    (orchestrate jlNone [{ init_event_loop := true }] true).getLast? ≠
      some Frame.done := by
  refine ⟨rfl, rfl, ?_⟩
  intro hcontra
  rw [show (orchestrate jlNone [{ init_event_loop := true }] true).getLast? =
      some Frame.startStep from rfl] at hcontra
  injection hcontra with h2
  exact Frame.noConfusion h2

/-- Claim C3 (amended): the orchestrator never catches the run outcome —
the client-visible stream is exactly the frames the translator enqueued
before the exception, identical whether the run raised or returned; since
the translator has no `error`-frame path, the client never sees an `error`
frame, and no terminal sequence is appended after a raise (the stream still
ends without a hang or a re-raised exception, by `task.done()` polling). -/
theorem orchestrator_passthrough (jl : String → Option PyJson) :
    (∀ es raised, orchestrate jl es raised =
      (runFrom jl initState 0 es).output) ∧
    (∀ es, orchestrate jl es true = orchestrate jl es false) ∧
    (∀ es raised,
      List.countP isErrorFrame (orchestrate jl es raised) = 0) := by
  refine ⟨fun es raised => rfl, fun es => rfl, fun es raised => ?_⟩
  exact runFrom_no_error jl es initState 0

/-- Claim C4, counterexample: a tool id resolved by a `tool_result` and
then re-announced by a second `current_tool_use` is present in
`pendingTools` while two `tool-input-start`/`tool-input-available` pairs
have been emitted for it — not exactly one. -/
theorem reannounced_tool_double_pair_cx :
    "a" ∈ (runFrom jlNone initState 0
      [{ current_tool_use := some ⟨some "a", some "n", none⟩ },
       { tool_result := some ⟨some "a", none, none⟩ },
       { current_tool_use := some ⟨some "a", some "n", none⟩ }]).state.pending_tool_ids ∧
    List.countP (isInputStartFor "a") (runFrom jlNone initState 0
      [{ current_tool_use := some ⟨some "a", some "n", none⟩ },
       { tool_result := some ⟨some "a", none, none⟩ },
       { current_tool_use := some ⟨some "a", some "n", none⟩ }]).output = 2 := by
  exact ⟨by decide, rfl⟩

/-- Claim C4 (amended): `tool-input-start` and `tool-input-available`
frames are always emitted in equal numbers for any id; every id pending at
the end of a run was announced at least once (exactly once per
announcement, since re-announcement after a result is possible); and
removal from `pendingTools` coincides exactly with the steps that emit a
`tool-output-*` frame for that id, on both the `tool_stream_event` and the
`tool_result` paths. -/
theorem pending_tools_accounting (jl : String → Option PyJson) :
    (∀ es tid,
      List.countP (isInputStartFor tid) (runFrom jl initState 0 es).output =
        List.countP (isInputAvailableFor tid)
          (runFrom jl initState 0 es).output) ∧
    (∀ es tid, tid ∈ (runFrom jl initState 0 es).state.pending_tool_ids →
      1 ≤ List.countP (isInputStartFor tid)
        (runFrom jl initState 0 es).output) ∧
    (∀ s c e s2 c2 out tid, callback jl s c e = Except.ok (s2, c2, out) →
      List.countP (isOutputFor tid) out ≠ 0 →
      tid ∉ s2.pending_tool_ids) ∧
    (∀ s c e s2 c2 out tid, callback jl s c e = Except.ok (s2, c2, out) →
      tid ∈ s.pending_tool_ids → tid ∉ s2.pending_tool_ids →
      List.countP (isOutputFor tid) out ≠ 0) := by
  refine ⟨fun es tid => runFrom_pair_counts jl es initState 0 tid,
    fun es tid hmem => ?_,
    fun s c e s2 c2 out tid h hc =>
      callback_output_removes jl s c e s2 c2 out h tid hc,
    fun s c e s2 c2 out tid h hin hgone =>
      callback_removal_has_output jl s c e s2 c2 out h tid hin hgone⟩
  rcases runFrom_pending_announced jl es initState 0 tid hmem with hin | hc
  · exact absurd hin (by simp [initState])
  · exact hc

/-- Witness for `pending_tools_accounting` on concrete runs and steps. -/
theorem pending_tools_accounting_witness :
    1 ≤ List.countP (isInputStartFor "t1") (runFrom jlNone initState 0
      [{ current_tool_use := some ⟨some "t1", some "n", none⟩ }]).output ∧
    "t1" ∉ (⟨false, false, false, false, none, none, []⟩ :
      HandlerState).pending_tool_ids := by
  constructor
  · exact (pending_tools_accounting jlNone).2.1
      [{ current_tool_use := some ⟨some "t1", some "n", none⟩ }] "t1"
      (by decide)
  · exact (pending_tools_accounting jlNone).2.2.1
      ⟨false, false, false, false, none, none, ["t1"]⟩ 0
      { tool_stream_event := some ⟨some ⟨some "t1", none, none⟩, none⟩ }
      ⟨false, false, false, false, none, none, []⟩ 0
      [Frame.toolOutputAvailable "t1" PyJson.null] "t1" rfl (by decide)

/-- Claim C5: two consecutive `current_tool_use` events carrying the same
tool id (before any result for it) produce exactly one `tool-input-start`
and one `tool-input-available` frame for that id; the second event emits no
frames and leaves the handler state unchanged (only the ambient uuid
source advances, because the Python code evaluates the `_new_id` default
argument of `.get("toolUseId", ...)` eagerly). -/
theorem duplicate_tool_use_dedup (jl : String → Option PyJson)
    (s : HandlerState) (c : Nat) (tu : ToolUse) (tid : String)
    (hid : tu.toolUseId = some tid) (hname : strTruthy tu.name = true)
    (hfresh : tid ∉ s.pending_tool_ids) :
    List.countP (isInputStartFor tid)
      (resOut (callback jl s c { current_tool_use := some tu })) = 1 ∧
    List.countP (isInputAvailableFor tid)
      (resOut (callback jl s c { current_tool_use := some tu })) = 1 ∧
    callback jl (resState (callback jl s c { current_tool_use := some tu }))
        (resCtr (callback jl s c { current_tool_use := some tu }))
        { current_tool_use := some tu } =
      Except.ok
        (resState (callback jl s c { current_tool_use := some tu }),
         resCtr (callback jl s c { current_tool_use := some tu }) + 1, []) := by
  have hg : ctu_guard { current_tool_use := some tu } = some tu := by
    simp [ctu_guard, hname]
  have hcb : callback jl s c { current_tool_use := some tu } =
      Except.ok (ctu_branch jl s c tu) := by
    simp [callback, strTruthy, hg]
  have heq := ctu_branch_fresh_eq jl s c tu tid hid hfresh
  refine ⟨?_, ?_, ?_⟩
  · rw [hcb, heq]
    simp [resOut, List.countP_append, List.countP_cons, isInputStartFor,
      isInputAvailableFor,
      ensure_started_countP (isInputStartFor tid) _ rfl rfl,
      close_reasoning_countP (isInputStartFor tid) _ (fun i => rfl),
      close_text_countP (isInputStartFor tid) _ (fun i => rfl)]
  · rw [hcb, heq]
    simp [resOut, List.countP_append, List.countP_cons, isInputStartFor,
      isInputAvailableFor,
      ensure_started_countP (isInputAvailableFor tid) _ rfl rfl,
      close_reasoning_countP (isInputAvailableFor tid) _ (fun i => rfl),
      close_text_countP (isInputAvailableFor tid) _ (fun i => rfl)]
  · rw [hcb, heq]
    have hcb2 : callback jl
        ({ (close_text (close_reasoning (ensure_started s).1).1).1 with
            pending_tool_ids := setAdd s.pending_tool_ids tid }) (c + 1)
        { current_tool_use := some tu } =
        Except.ok (ctu_branch jl
          ({ (close_text (close_reasoning (ensure_started s).1).1).1 with
              pending_tool_ids := setAdd s.pending_tool_ids tid }) (c + 1) tu) := by
      simp [callback, strTruthy, hg]
    rw [show resState (Except.ok
        (({ (close_text (close_reasoning (ensure_started s).1).1).1 with
            pending_tool_ids := setAdd s.pending_tool_ids tid } : HandlerState),
          c + 1,
         (ensure_started s).2 ++ (close_reasoning (ensure_started s).1).2 ++
           (close_text (close_reasoning (ensure_started s).1).1).2 ++
           [Frame.toolInputStart tid (tu.name.getD ""),
            Frame.toolInputAvailable tid (tu.name.getD "")
              (parse_tool_input jl (tu.input.getD (PyJson.obj [])))])) =
        ({ (close_text (close_reasoning (ensure_started s).1).1).1 with
            pending_tool_ids := setAdd s.pending_tool_ids tid } : HandlerState)
      from rfl]
    rw [show resCtr (Except.ok
        (({ (close_text (close_reasoning (ensure_started s).1).1).1 with
            pending_tool_ids := setAdd s.pending_tool_ids tid } : HandlerState),
          c + 1,
         (ensure_started s).2 ++ (close_reasoning (ensure_started s).1).2 ++
           (close_text (close_reasoning (ensure_started s).1).1).2 ++
           [Frame.toolInputStart tid (tu.name.getD ""),
            Frame.toolInputAvailable tid (tu.name.getD "")
              (parse_tool_input jl (tu.input.getD (PyJson.obj [])))])) = c + 1
      from rfl]
    rw [hcb2, ctu_branch_second jl _ (c + 1) tu tid hid (by simp) (by simp)
      (by simpa using close_reasoning_guard_after (ensure_started s).1)
      (by simpa using
        close_text_guard_after (close_reasoning (ensure_started s).1).1)
      (by exact mem_setAdd.mpr (Or.inr rfl))]

/-- Witness for `duplicate_tool_use_dedup` at a concrete fresh tool id. -/
theorem duplicate_tool_use_dedup_witness :
    List.countP (isInputStartFor "t1")
      (resOut (callback jlNone initState 0
        { current_tool_use := some ⟨some "t1", some "calc", none⟩ })) = 1 ∧
    List.countP (isInputAvailableFor "t1")
      (resOut (callback jlNone initState 0
        { current_tool_use := some ⟨some "t1", some "calc", none⟩ })) = 1 ∧
    callback jlNone
        (resState (callback jlNone initState 0
          { current_tool_use := some ⟨some "t1", some "calc", none⟩ }))
        (resCtr (callback jlNone initState 0
          { current_tool_use := some ⟨some "t1", some "calc", none⟩ }))
        { current_tool_use := some ⟨some "t1", some "calc", none⟩ } =
      Except.ok
        (resState (callback jlNone initState 0
          { current_tool_use := some ⟨some "t1", some "calc", none⟩ }),
         resCtr (callback jlNone initState 0
          { current_tool_use := some ⟨some "t1", some "calc", none⟩ }) + 1,
         []) :=
  duplicate_tool_use_dedup jlNone initState 0 ⟨some "t1", some "calc", none⟩
    "t1" rfl (by decide) (by simp [initState])

/-- Claim C6, counterexample: a `tool_result` for an id never announced
does not always avoid throwing — with status `"error"` and a non-dict
first content element, `content[0].get` raises `AttributeError` and no
`tool-output-*` frame is emitted. -/
theorem orphan_tool_result_crash_cx :
    "orphan" ∉ initState.pending_tool_ids ∧
    callback jlNone initState 0
      { tool_result := some ⟨some "orphan", some "error",
        some [PyJson.arr []]⟩ } =
      Except.error "AttributeError" := ⟨by simp [initState], rfl⟩

/-- Claim C6 (amended): a `tool_result` whose id was never announced via
`current_tool_use` still emits exactly one `tool-output-available` or
`tool-output-error` frame for that id and leaves the handler state
unchanged (the discard of an absent id is a silent no-op), provided the
payload does not hit the malformed-content crash (`badErrorContent`):
status `"error"` with a non-dict first content element raises. -/
theorem orphan_tool_result_tolerated (jl : String → Option PyJson)
    (s : HandlerState) (c : Nat) (tr : ToolResult) (tid : String)
    (hid : tr.toolUseId = some tid) (hfresh : tid ∉ s.pending_tool_ids)
    (hok : badErrorContent tr = false) :
    ∃ f, callback jl s c { tool_result := some tr } =
        Except.ok (s, c, [f]) ∧ isOutputFor tid f = true := by
  have hdisc : setDiscard s.pending_tool_ids tid = s.pending_tool_ids :=
    setDiscard_of_not_mem hfresh
  by_cases herr : tr.status.getD "success" = "error"
  · cases hck : tr.content.getD [] with
    | nil =>
      refine ⟨Frame.toolOutputError tid (PyJson.str "Tool execution failed"),
        ?_, by simp [isOutputFor]⟩
      show tr_branch s c tr = _
      simp only [tr_branch, hid, Option.getD_some, hck, if_pos herr, hdisc]
    | cons c0 rest =>
      cases c0 with
      | obj fields =>
        cases hl : fields.lookup "text" with
        | some x =>
          refine ⟨Frame.toolOutputError tid x, ?_, by simp [isOutputFor]⟩
          show tr_branch s c tr = _
          simp only [tr_branch, hid, Option.getD_some, hck, if_pos herr,
            hdisc, pyGet, hl]
        | none =>
          refine ⟨Frame.toolOutputError tid
            (PyJson.str "Tool execution failed"), ?_, by simp [isOutputFor]⟩
          show tr_branch s c tr = _
          simp only [tr_branch, hid, Option.getD_some, hck, if_pos herr,
            hdisc, pyGet, hl]
      | null => simp [badErrorContent, hck, herr] at hok
      | bool b => simp [badErrorContent, hck, herr] at hok
      | num n => simp [badErrorContent, hck, herr] at hok
      | str s0 => simp [badErrorContent, hck, herr] at hok
      | arr l => simp [badErrorContent, hck, herr] at hok
  · refine ⟨Frame.toolOutputAvailable tid
      (match tr.content.getD [] with
       | [single] => single
       | other => PyJson.arr other), ?_, by simp [isOutputFor]⟩
    show tr_branch s c tr = _
    simp only [tr_branch, hid, Option.getD_some, if_neg herr, hdisc]

/-- Witness for `orphan_tool_result_tolerated` at a concrete orphan id. -/
theorem orphan_tool_result_tolerated_witness :
    ∃ f, callback jlNone initState 0
        { tool_result := some ⟨some "orphan", none, none⟩ } =
        Except.ok (initState, 0, [f]) ∧ isOutputFor "orphan" f = true :=
  orphan_tool_result_tolerated jlNone initState 0 ⟨some "orphan", none, none⟩
    "orphan" rfl (by simp [initState]) rfl

/-- Claim C7, counterexample: the translator is not total on malformed
input — a `tool_result` event with status `"error"` whose first content
element is a plain string raises `AttributeError` (in Python,
`content[0].get` on a `str`) instead of returning a frame list. -/
theorem malformed_tool_result_raises_cx :
    callback jlNone initState 0
      { tool_result := some ⟨some "t9", some "error",
        some [PyJson.str "oops"]⟩ } =
      Except.error "AttributeError" ∧
    raisesOn { tool_result := some ⟨some "t9", some "error",
      some [PyJson.str "oops"]⟩ } = true := ⟨rfl, rfl⟩

/-- Claim C7 (amended): any event matching none of the recognized guard
shapes produces the empty frame list and leaves the state unchanged; and
the translator returns (never raises) exactly on the events outside
`raisesOn` — the only raising inputs are dispatched `tool_result` events
with status `"error"` whose first content element is not a dict. -/
theorem translator_totality_characterized (jl : String → Option PyJson)
    (s : HandlerState) (c : Nat) (e : Event) :
    (recognized e = false → callback jl s c e = Except.ok (s, c, [])) ∧
    (resOk (callback jl s c e) = true ↔ raisesOn e = false) := by
  refine ⟨callback_unrecognized jl s c e, ?_⟩
  simp only [callback]
  split
  · next h1 => simp [resOk, raisesOn, h1]
  · next h1 =>
    split
    · next h2 => simp [resOk, raisesOn, h1, h2]
    · next h2 =>
      split
      · next h3 => simp [resOk, raisesOn, h1, h2, h3]
      · next h3 =>
        split
        · next h4 => simp [resOk, raisesOn, h1, h2, h3, h4]
        · next h4 =>
          split
          · next tu h5 => simp [resOk, raisesOn, h1, h2, h3, h4, h5]
          · next h5 =>
            split
            · next tse h6 =>
              simp [resOk, raisesOn, h1, h2, h3, h4, h5, h6]
            · next h6 =>
              split
              · next tr h7 =>
                rw [tr_branch_ok_iff]
                simp [raisesOn, h1, h2, h3, h4, h5, h6, h7]
              · next h7 =>
                split
                · next h8 =>
                  simp [resOk, raisesOn, h1, h2, h3, h4, h5, h6, h7, h8]
                · next h8 =>
                  split
                  · next r h9 =>
                    simp [resOk, raisesOn, h1, h2, h3, h4, h5, h6, h7, h8, h9]
                  · next h9 =>
                    simp [resOk, raisesOn, h1, h2, h3, h4, h5, h6, h7, h8, h9]

/-- Witness for `translator_totality_characterized` on a concrete
unrecognized event and a concrete recognized one. -/
theorem translator_totality_characterized_witness :
    callback jlNone initState 0 {} = Except.ok (initState, 0, []) ∧
    resOk (callback jlNone initState 0 { init_event_loop := true }) = true := by
  refine ⟨(translator_totality_characterized jlNone initState 0 {}).1 rfl, ?_⟩
  exact (translator_totality_characterized jlNone initState 0
    { init_event_loop := true }).2.mpr rfl

/-- Claim C8: the `finish` reason on a `result` event is computed by a
total mapping agreeing with the specification's table (`end_turn` and
`stop_sequence` to `stop`, `max_tokens` to `length`, `tool_use` to
`tool-calls`, anything else or absent to `stop`), and the emitted `finish`
frame carries exactly that mapped reason, followed by `done`. -/
theorem finish_reason_mapping (jl : String → Option PyJson) :
    (∀ ro : Option String,
      reason_map_get (ro.getD "stop") = specFinishReason ro) ∧
    (∀ (s : HandlerState) (c : Nat) (r : AgentResult), ∃ pre,
      resOut (callback jl s c { result := some r }) =
        pre ++ [Frame.finish (some (specFinishReason r.stop_reason)),
          Frame.done]) := by
  refine ⟨reason_map_agrees, ?_⟩
  intro s c r
  refine ⟨(close_reasoning s).2 ++ (close_text (close_reasoning s).1).2 ++
    (if (close_text (close_reasoning s).1).1.in_step then [Frame.finishStep]
     else []), ?_⟩
  show (result_branch s c r).2.2 = _
  simp only [result_branch]
  rw [reason_map_agrees]
  split <;> simp

/-- Claim C9: an event whose `data` field, or whose `reasoningText` field,
is present but equal to the empty string produces no frames and leaves the
handler state unchanged — empty payloads behave exactly like absent
fields (Python falsiness of the empty string). -/
theorem empty_payload_events_noop (jl : String → Option PyJson)
    (s : HandlerState) (c : Nat) (b : Bool) :
    callback jl s c { data := some "" } = Except.ok (s, c, []) ∧
    callback jl s c { reasoningText := some "", reasoning := b } =
      Except.ok (s, c, []) := ⟨rfl, rfl⟩

/-- Claim C10: a `current_tool_use` event whose `name` is missing or empty
produces no frames and leaves the state (including `pendingTools`)
unchanged, even when a `toolUseId` and an input are present; conversely any
step that emits a `tool-input-start` frame was dispatched through the
tool-use guard, which requires a truthy (non-empty) `name`. -/
theorem nameless_tool_use_noop (jl : String → Option PyJson)
    (s : HandlerState) (c : Nat) (tid : String) (v : PyJson) :
    callback jl s c { current_tool_use := some ⟨some tid, none, some v⟩ } =
      Except.ok (s, c, []) ∧
    callback jl s c { current_tool_use := some ⟨some tid, some "", some v⟩ } =
      Except.ok (s, c, []) ∧
    (∀ e s2 c2 out, callback jl s c e = Except.ok (s2, c2, out) →
      List.countP isAnyInputStart out ≠ 0 →
      ∃ tu, ctu_guard e = some tu ∧ strTruthy tu.name = true) := by
  refine ⟨rfl, rfl, ?_⟩
  intro e s2 c2 out h hc
  obtain ⟨tu, htu⟩ := callback_inputStart_origin jl s c e s2 c2 out h hc
  refine ⟨tu, htu, ?_⟩
  cases hctu : e.current_tool_use with
  | none =>
    rw [show ctu_guard e = none by simp [ctu_guard, hctu]] at htu
    cases htu
  | some tu0 =>
    have htu2 := htu
    simp only [ctu_guard, hctu] at htu2
    split at htu2
    · next hn =>
      injection htu2 with h2
      rw [← h2]
      exact hn
    · cases htu2

/-- Witness for `nameless_tool_use_noop`: a named tool-use event that does
emit `tool-input-start` passes the guard with a truthy name. -/
theorem nameless_tool_use_noop_witness :
    ∃ tu, ctu_guard
        { current_tool_use := some ⟨some "w1", some "nm", none⟩ } = some tu ∧
      strTruthy tu.name = true := by
  exact (nameless_tool_use_noop jlNone initState 0 "w1" PyJson.null).2.2
    { current_tool_use := some ⟨some "w1", some "nm", none⟩ }
    ⟨true, true, false, false, none, none, ["w1"]⟩ 1
    [Frame.start none, Frame.startStep, Frame.toolInputStart "w1" "nm",
     Frame.toolInputAvailable "w1" "nm" (PyJson.obj [])] rfl (by decide)

end RonBrowser
